import Mathlib

/-!
Verification of the odds-reconciliation core of the `CL_helper` repository:
the team-name normalizer, fixture selection, the moneyline / totals
aggregation in `app/streamlit_app.py`, and the fetch / retry logic in
`src/footballdata/extract/odds_api.py`, shallowly embedded as executable
Lean definitions.
-/

set_option maxHeartbeats 1000000

namespace CLHelper

/-! ## Character-level model of the Python string primitives used by
`_normalize_team_name` (app/streamlit_app.py, lines 28-36). -/

/-- The character class `[a-z0-9]` of the regex
`re.sub(r"[^a-z0-9]+", " ", text)`. -/
def isLowerAlnumChar (c : Char) : Bool :=
  (97 ≤ c.toNat && c.toNat ≤ 122) || (48 ≤ c.toNat && c.toNat ≤ 57)

/-- The Python regex `\s` whitespace class (ASCII part) used by
`re.sub(r"\s+", " ", ·)` and `str.strip()`. -/
def isPySpaceChar (c : Char) : Bool :=
  c.toNat = 32 || c.toNat = 9 || c.toNat = 10 || c.toNat = 13 ||
  c.toNat = 11 || c.toNat = 12

/-- The Python regex `\w` word class (ASCII part), which decides the `\b`
word boundaries of the stop-token regex `\b(fc|cf|ac|club|the)\b`. -/
def isWordCharPy (c : Char) : Bool :=
  (97 ≤ c.toNat && c.toNat ≤ 122) || (65 ≤ c.toNat && c.toNat ≤ 90) ||
  (48 ≤ c.toNat && c.toNat ≤ 57) || c.toNat = 95

/-- Finite model of `unicodedata.normalize("NFKD", ·)` at a single
character, restricted to the Latin-1 accented letters that occur in team
names; every other character decomposes to itself.  The second character
of each decomposition is the corresponding combining accent
(U+0300 grave, U+0301 acute, U+0302 circumflex, U+0303 tilde,
U+0308 diaeresis, U+0327 cedilla). -/
def nfkdChar (c : Char) : List Char :=
  match c.toNat with
  | 0xE0 => [Char.ofNat 0x61, Char.ofNat 0x300]
  | 0xE1 => [Char.ofNat 0x61, Char.ofNat 0x301]
  | 0xE2 => [Char.ofNat 0x61, Char.ofNat 0x302]
  | 0xE3 => [Char.ofNat 0x61, Char.ofNat 0x303]
  | 0xE4 => [Char.ofNat 0x61, Char.ofNat 0x308]
  | 0xE7 => [Char.ofNat 0x63, Char.ofNat 0x327]
  | 0xE8 => [Char.ofNat 0x65, Char.ofNat 0x300]
  | 0xE9 => [Char.ofNat 0x65, Char.ofNat 0x301]
  | 0xEA => [Char.ofNat 0x65, Char.ofNat 0x302]
  | 0xEB => [Char.ofNat 0x65, Char.ofNat 0x308]
  | 0xED => [Char.ofNat 0x69, Char.ofNat 0x301]
  | 0xF1 => [Char.ofNat 0x6E, Char.ofNat 0x303]
  | 0xF3 => [Char.ofNat 0x6F, Char.ofNat 0x301]
  | 0xF4 => [Char.ofNat 0x6F, Char.ofNat 0x302]
  | 0xF5 => [Char.ofNat 0x6F, Char.ofNat 0x303]
  | 0xF6 => [Char.ofNat 0x6F, Char.ofNat 0x308]
  | 0xFA => [Char.ofNat 0x75, Char.ofNat 0x301]
  | 0xFC => [Char.ofNat 0x75, Char.ofNat 0x308]
  | 0xC1 => [Char.ofNat 0x41, Char.ofNat 0x301]
  | 0xC9 => [Char.ofNat 0x45, Char.ofNat 0x301]
  | 0xD3 => [Char.ofNat 0x4F, Char.ofNat 0x301]
  | _ => [c]

/-- Model of `unicodedata.combining(ch) != 0`: the combining diacritical
marks block U+0300 – U+036F. -/
def isCombiningChar (c : Char) : Bool :=
  768 ≤ c.toNat && c.toNat ≤ 879

/-- Model of Python `str.lower` (ASCII part). -/
def pyLowerChar (c : Char) : Char :=
  if 65 ≤ c.toNat && c.toNat ≤ 90 then Char.ofNat (c.toNat + 32) else c

/-- The alternatives of the stop-word regex `\b(fc|cf|ac|club|the)\b`. -/
def stopTokens : List (List Char) :=
  [['f', 'c'], ['c', 'f'], ['a', 'c'], ['c', 'l', 'u', 'b'], ['t', 'h', 'e']]

/-- `stripPrefixQ t cs` is the remainder of `cs` after the prefix `t`,
when `t` is a prefix of `cs`. -/
def stripPrefixQ : List Char → List Char → Option (List Char)
  | [], cs => some cs
  | _ :: _, [] => none
  | a :: t, c :: cs => if a = c then stripPrefixQ t cs else none

/-- The trailing `\b` of the stop-token regex: the rest of the string is
empty or starts with a non-word character. -/
def boundaryOk : List Char → Bool
  | [] => true
  | d :: _ => !isWordCharPy d

/-- Does a match of the stop-token regex start at the head of `cs`?
If so, return the remainder after the matched token. -/
def matchStopToken (cs : List Char) : Option (List Char) :=
  (stopTokens.filterMap fun t =>
    match stripPrefixQ t cs with
    | some rest => if boundaryOk rest then some rest else none
    | none => none).head?

/-- Left-to-right scan of `re.sub(r"\b(fc|cf|ac|club|the)\b", " ", ·)`:
each non-overlapping whole-word stop token becomes a single space.
`prevWord` records whether the previously scanned character was a word
character, which decides the leading `\b`.  The scan consumes at least
one character per step, so the fuel `cs.length + 1` supplied by
`subStopTokens` never runs out; the fuel only makes the recursion
structural. -/
def subStopTokensFuel : ℕ → Bool → List Char → List Char
  | 0, _, cs => cs
  | _ + 1, _, [] => []
  | fuel + 1, prevWord, c :: rest =>
    if prevWord then c :: subStopTokensFuel fuel (isWordCharPy c) rest
    else
      match matchStopToken (c :: rest) with
      | some rest2 => ' ' :: subStopTokensFuel fuel true rest2
      | none => c :: subStopTokensFuel fuel (isWordCharPy c) rest

/-- Model of `re.sub(r"\b(fc|cf|ac|club|the)\b", " ", ·)`. -/
def subStopTokens (cs : List Char) : List Char :=
  subStopTokensFuel (cs.length + 1) false cs

/-- Model of `re.sub(r"[^a-z0-9]+", " ", ·)`: every maximal run of
characters outside `[a-z0-9]` becomes a single space.  `inRun` records
whether the scanner is inside a non-alphanumeric run whose replacement
space has already been emitted. -/
def collapseNonAlnumRun (inRun : Bool) : List Char → List Char
  | [] => []
  | c :: rest =>
    if isLowerAlnumChar c then c :: collapseNonAlnumRun false rest
    else if inRun then collapseNonAlnumRun true rest
    else ' ' :: collapseNonAlnumRun true rest

/-- Model of `re.sub(r"[^a-z0-9]+", " ", ·)`. -/
def collapseNonAlnum (cs : List Char) : List Char :=
  collapseNonAlnumRun false cs

/-- Model of `re.sub(r"\s+", " ", ·)`: every maximal whitespace run
becomes a single space. -/
def collapseSpacesRun (inRun : Bool) : List Char → List Char
  | [] => []
  | c :: rest =>
    if isPySpaceChar c then
      if inRun then collapseSpacesRun true rest
      else ' ' :: collapseSpacesRun true rest
    else c :: collapseSpacesRun false rest

/-- Model of `re.sub(r"\s+", " ", ·)`. -/
def collapseSpaces (cs : List Char) : List Char :=
  collapseSpacesRun false cs

/-- Model of `str.strip()`: drop whitespace from both ends. -/
def stripEnds (cs : List Char) : List Char :=
  ((cs.dropWhile isPySpaceChar).reverse.dropWhile isPySpaceChar).reverse

/-- `_normalize_team_name` (app/streamlit_app.py, lines 28-36): NFKD
decomposition, strip combining marks, lowercase, remove whole-word stop
tokens, collapse non-alphanumeric runs to single spaces, collapse
whitespace runs and strip.  `None` and `""` are falsy in Python, so both
yield `""`. -/
def _normalize_team_name (name : Option String) : String :=
  match name with
  | none => ""
  | some s =>
    if s = "" then ""
    else
      let t1 := (s.data.map nfkdChar).flatten
      let t2 := t1.filter fun ch => !isCombiningChar ch
      let t3 := t2.map pyLowerChar
      let t4 := subStopTokens t3
      let t5 := collapseNonAlnum t4
      let t6 := collapseSpaces t5
      String.mk (stripEnds t6)

/-! ## Canonical shape of normalized keys -/

/-- Characters that may appear in the output of `collapseNonAlnum`. -/
def goodChar (c : Char) : Bool := isLowerAlnumChar c || decide (c = ' ')

/-- No two adjacent spaces. -/
def NoDoubleSpace (s : List Char) : Prop :=
  List.Chain' (fun a b => ¬(a = ' ' ∧ b = ' ')) s

/-- Shape invariant of `collapseNonAlnum` output: only `[a-z0-9]`
characters and non-adjacent spaces. -/
def CAShape (s : List Char) : Prop :=
  (∀ c ∈ s, goodChar c = true) ∧ NoDoubleSpace s

/-- Scanner deciding the canonical-key shape: words of `[a-z0-9]+`
separated by single spaces, with no leading or trailing space (state 0 =
start of string, 1 = just after an alphanumeric, 2 = just after a
separator space). -/
def canonState : ℕ → List Char → Bool
  | st, [] => decide (st ≠ 2)
  | st, c :: cs =>
    if isLowerAlnumChar c then canonState 1 cs
    else if c = ' ' then decide (st = 1) && canonState 2 cs
    else false

/-- A string is a canonical join key iff it is empty or consists of
`[a-z0-9]+` words joined by exactly one space. -/
def isCanonicalKey (s : String) : Bool := canonState 0 s.data

theorem alnum_ne_space {c : Char} (h : isLowerAlnumChar c = true) :
    c ≠ ' ' := by
  intro hc
  subst hc
  exact absurd h (by decide)

theorem alnum_not_pyspace {c : Char} (h : isLowerAlnumChar c = true) :
    isPySpaceChar c = false := by
  simp only [isLowerAlnumChar, Bool.or_eq_true, Bool.and_eq_true,
    decide_eq_true_eq] at h
  simp only [isPySpaceChar, Bool.or_eq_false_iff, decide_eq_false_iff_not]
  omega

theorem good_ne_space_alnum {c : Char} (hg : goodChar c = true)
    (hne : c ≠ ' ') : isLowerAlnumChar c = true := by
  simp only [goodChar, Bool.or_eq_true, decide_eq_true_eq] at hg
  rcases hg with h | h
  · exact h
  · exact absurd h hne

theorem CAShape_nil : CAShape [] := ⟨by simp, List.chain'_nil⟩

theorem CAShape_tail {c : Char} {t : List Char} (h : CAShape (c :: t)) :
    CAShape t :=
  ⟨fun x hx => h.1 x (List.mem_cons_of_mem _ hx), h.2.tail⟩

theorem CAShape_reverse {s : List Char} (hs : CAShape s) :
    CAShape s.reverse := by
  refine ⟨fun c hc => hs.1 c (List.mem_reverse.mp hc), ?_⟩
  rw [NoDoubleSpace, List.chain'_reverse]
  exact hs.2.imp fun a b h => fun hc => h ⟨hc.2, hc.1⟩

/-- In run state, the first emitted character is alphanumeric. -/
theorem collapseNonAlnumRun_true_head (cs : List Char) :
    collapseNonAlnumRun true cs = [] ∨
    ∃ c t, collapseNonAlnumRun true cs = c :: t ∧
      isLowerAlnumChar c = true := by
  induction cs with
  | nil => exact Or.inl rfl
  | cons c rest ih =>
    by_cases h : isLowerAlnumChar c = true
    · right
      refine ⟨c, collapseNonAlnumRun false rest, ?_, h⟩
      simp only [collapseNonAlnumRun]
      rw [if_pos h]
    · have : collapseNonAlnumRun true (c :: rest) =
          collapseNonAlnumRun true rest := by
        simp only [collapseNonAlnumRun]
        rw [if_neg h, if_pos trivial]
      rw [this]
      exact ih

theorem collapseNonAlnumRun_shape :
    ∀ (cs : List Char) (b : Bool), CAShape (collapseNonAlnumRun b cs) := by
  intro cs
  induction cs with
  | nil => intro b; exact CAShape_nil
  | cons c rest ih =>
    intro b
    by_cases h : isLowerAlnumChar c = true
    · have hrw : collapseNonAlnumRun b (c :: rest) =
          c :: collapseNonAlnumRun false rest := by
        simp only [collapseNonAlnumRun]
        rw [if_pos h]
      rw [hrw]
      refine ⟨?_, List.chain'_cons'.mpr ⟨?_, (ih false).2⟩⟩
      · intro x hx
        rcases List.mem_cons.mp hx with rfl | hx
        · simp [goodChar, h]
        · exact (ih false).1 x hx
      · exact fun y _ hcon => alnum_ne_space h hcon.1
    · cases b with
      | true =>
        have hrw : collapseNonAlnumRun true (c :: rest) =
            collapseNonAlnumRun true rest := by
          simp only [collapseNonAlnumRun]
          rw [if_neg h, if_pos trivial]
        rw [hrw]
        exact ih true
      | false =>
        have hrw : collapseNonAlnumRun false (c :: rest) =
            ' ' :: collapseNonAlnumRun true rest := by
          simp only [collapseNonAlnumRun]
          rw [if_neg h, if_neg (by simp)]
        rw [hrw]
        refine ⟨?_, List.chain'_cons'.mpr ⟨?_, (ih true).2⟩⟩
        · intro x hx
          rcases List.mem_cons.mp hx with rfl | hx
          · simp [goodChar]
          · exact (ih true).1 x hx
        · intro y hy hcon
          rcases collapseNonAlnumRun_true_head rest with hnil | ⟨d, t, hdt, hd⟩
          · rw [hnil] at hy
            simp at hy
          · rw [hdt] at hy
            simp only [List.head?_cons, Option.mem_def,
              Option.some.injEq] at hy
            subst hy
            exact alnum_ne_space hd hcon.2

theorem collapseNonAlnum_shape (s : List Char) :
    CAShape (collapseNonAlnum s) :=
  collapseNonAlnumRun_shape s false

theorem collapseSpacesRun_of_CAShape :
    ∀ (s : List Char), CAShape s →
    (collapseSpacesRun false s = s ∧
     ((s = [] ∨ ∃ c t, s = c :: t ∧ isLowerAlnumChar c = true) →
       collapseSpacesRun true s = s)) := by
  intro s
  induction s with
  | nil => exact fun _ => ⟨rfl, fun _ => rfl⟩
  | cons c rest ih =>
    intro hs
    have hgood : goodChar c = true := hs.1 c (List.mem_cons_self _ _)
    have htail := ih (CAShape_tail hs)
    constructor
    · by_cases hsp : c = ' '
      · subst hsp
        have hrw : collapseSpacesRun false (' ' :: rest) =
            ' ' :: collapseSpacesRun true rest := by
          simp only [collapseSpacesRun]
          rw [if_pos (by decide), if_neg (by simp)]
        rw [hrw]
        have hrest : rest = [] ∨ ∃ c t, rest = c :: t ∧
            isLowerAlnumChar c = true := by
          cases rest with
          | nil => exact Or.inl rfl
          | cons d t =>
            have hd : ¬(d = ' ') :=
              fun hdd => (List.chain'_cons.mp hs.2).1 ⟨rfl, hdd⟩
            exact Or.inr ⟨d, t, rfl,
              good_ne_space_alnum (hs.1 d (by simp)) hd⟩
        rw [htail.2 hrest]
      · have halnum := good_ne_space_alnum hgood hsp
        have hrw : collapseSpacesRun false (c :: rest) =
            c :: collapseSpacesRun false rest := by
          simp only [collapseSpacesRun]
          rw [if_neg (by simp [alnum_not_pyspace halnum])]
        rw [hrw, htail.1]
    · rintro (hnil | ⟨d, t, hdt, hd⟩)
      · cases hnil
      · injection hdt with h1 h2
        subst h1
        subst h2
        have hrw : collapseSpacesRun true (c :: rest) =
            c :: collapseSpacesRun false rest := by
          simp only [collapseSpacesRun]
          rw [if_neg (by simp [alnum_not_pyspace hd])]
        rw [hrw, htail.1]

theorem collapseSpaces_of_CAShape (s : List Char) (hs : CAShape s) :
    collapseSpaces s = s :=
  (collapseSpacesRun_of_CAShape s hs).1

theorem dropWhile_pyspace_CAShape {s : List Char} (hs : CAShape s) :
    CAShape (s.dropWhile isPySpaceChar) ∧
    (s.dropWhile isPySpaceChar = [] ∨
     ∃ c t, s.dropWhile isPySpaceChar = c :: t ∧
       isLowerAlnumChar c = true) := by
  cases s with
  | nil => exact ⟨hs, Or.inl rfl⟩
  | cons c rest =>
    have hgood : goodChar c = true := hs.1 c (List.mem_cons_self _ _)
    by_cases hsp : c = ' '
    · subst hsp
      rw [List.dropWhile_cons_of_pos (by decide)]
      cases rest with
      | nil => exact ⟨CAShape_nil, Or.inl rfl⟩
      | cons d t =>
        have hd : ¬(d = ' ') :=
          fun hdd => (List.chain'_cons.mp hs.2).1 ⟨rfl, hdd⟩
        have hdg : goodChar d = true := hs.1 d (by simp)
        have halnum := good_ne_space_alnum hdg hd
        rw [List.dropWhile_cons_of_neg (by simp [alnum_not_pyspace halnum])]
        exact ⟨CAShape_tail hs, Or.inr ⟨d, t, rfl, halnum⟩⟩
    · have halnum := good_ne_space_alnum hgood hsp
      rw [List.dropWhile_cons_of_neg (by simp [alnum_not_pyspace halnum])]
      exact ⟨hs, Or.inr ⟨c, rest, rfl, halnum⟩⟩

theorem canonState_ok :
    ∀ (s : List Char) (st : ℕ), CAShape s → s.getLast? ≠ some ' ' →
    (s.head? = some ' ' → st = 1) →
    (st = 2 → ∃ c t, s = c :: t ∧ isLowerAlnumChar c = true) →
    canonState st s = true := by
  intro s
  induction s with
  | nil =>
    intro st _ _ _ h2
    simp only [canonState, ne_eq, decide_eq_true_eq]
    intro hst
    rcases h2 hst with ⟨c, t, hct, _⟩
    cases hct
  | cons c rest ih =>
    intro st hs hlast hhead _
    have hgood : goodChar c = true := hs.1 c (List.mem_cons_self _ _)
    by_cases hc : isLowerAlnumChar c = true
    · simp only [canonState]
      rw [if_pos hc]
      refine ih 1 (CAShape_tail hs) ?_ (fun _ => rfl)
        (fun h => absurd h (by omega))
      cases rest with
      | nil => simp
      | cons d t => rw [← List.getLast?_cons_cons (a := c)]; exact hlast
    · have hsp : c = ' ' := by
        by_contra hne
        exact hc (good_ne_space_alnum hgood hne)
      subst hsp
      have hst : st = 1 := hhead rfl
      subst hst
      simp only [canonState]
      rw [if_neg (by simp [hc])]
      simp only [if_true, decide_True, Bool.true_and]
      cases rest with
      | nil => exact absurd rfl hlast
      | cons d t =>
        have hd : ¬(d = ' ') :=
          fun hdd => (List.chain'_cons.mp hs.2).1 ⟨rfl, hdd⟩
        have hdg : goodChar d = true := hs.1 d (by simp)
        have halnum := good_ne_space_alnum hdg hd
        refine ih 2 (CAShape_tail hs) ?_ ?_ ?_
        · rw [← List.getLast?_cons_cons (a := ' ')]; exact hlast
        · intro hh
          simp only [List.head?_cons, Option.some.injEq] at hh
          exact absurd hh hd
        · exact fun _ => ⟨d, t, rfl, halnum⟩

theorem stripEnds_canonical {s : List Char} (hs : CAShape s) :
    canonState 0 (stripEnds s) = true := by
  rcases dropWhile_pyspace_CAShape hs with ⟨hu, hhu⟩
  rcases dropWhile_pyspace_CAShape (CAShape_reverse hu) with ⟨hv, hhv⟩
  unfold stripEnds
  set u := s.dropWhile isPySpaceChar with hudef
  set v := u.reverse.dropWhile isPySpaceChar with hvdef
  refine canonState_ok v.reverse 0 (CAShape_reverse hv) ?_ ?_
    (fun h => absurd h (by omega))
  · rw [List.getLast?_reverse]
    rcases hhv with hnil | ⟨c, t, hct, hcal⟩
    · rw [hnil]; simp
    · rw [hct]
      simp only [List.head?_cons, ne_eq, Option.some.injEq]
      exact alnum_ne_space hcal
  · intro hh
    exfalso
    rw [List.head?_reverse] at hh
    rcases hhv with hnil | ⟨c, t, hct, _⟩
    · rw [hnil] at hh; simp at hh
    · have hvne : v ≠ [] := by rw [hct]; simp
      rcases List.dropWhile_suffix (l := u.reverse) isPySpaceChar with
        ⟨pre, hpre⟩
      have hlast2 : v.getLast? = u.reverse.getLast? := by
        rw [← hpre, List.getLast?_append]
        cases hgl : v.getLast? with
        | none => exact absurd (List.getLast?_eq_none_iff.mp hgl) hvne
        | some a => simp
      rw [hlast2, List.getLast?_reverse] at hh
      rcases hhu with hunil | ⟨b, t2, hbt, hbal⟩
      · rw [hunil] at hh; simp at hh
      · rw [hbt] at hh
        simp only [List.head?_cons, Option.some.injEq] at hh
        exact alnum_ne_space hbal hh

/-- C2: the team-name normalizer is exactly the pipeline
NFKD-decompose → strip combining marks → lowercase → remove the
whole-word tokens fc/cf/ac/club/the → collapse non-alphanumeric runs to
single spaces → collapse whitespace and trim; null or empty input yields
`""`; and `"FC Barcelona"`, `"Barcelona CF"` and `"barcelona"` all
normalize to the identical key. -/
theorem normalize_team_name_spec :
    (∀ s : String, s ≠ "" →
      _normalize_team_name (some s) =
        String.mk (stripEnds (collapseSpaces (collapseNonAlnum
          (subStopTokens
            (((s.data.map nfkdChar).flatten.filter
                fun ch => !isCombiningChar ch).map pyLowerChar)))))) ∧
    _normalize_team_name none = "" ∧
    _normalize_team_name (some "") = "" ∧
    _normalize_team_name (some "FC Barcelona") = "barcelona" ∧
    _normalize_team_name (some "Barcelona CF") = "barcelona" ∧
    _normalize_team_name (some "barcelona") = "barcelona" := by
  refine ⟨?_, rfl, by decide, by decide, by decide, by decide⟩
  intro s hs
  simp only [_normalize_team_name]
  rw [if_neg hs]

/-- Closed witness for `normalize_team_name_spec`: the pipeline equation
instantiated at the non-empty input `"FC Porto"`. -/
theorem normalize_team_name_spec_witness :
    _normalize_team_name (some "FC Porto") =
      String.mk (stripEnds (collapseSpaces (collapseNonAlnum
        (subStopTokens
          ((("FC Porto".data.map nfkdChar).flatten.filter
              fun ch => !isCombiningChar ch).map pyLowerChar))))) :=
  normalize_team_name_spec.1 "FC Porto" (by decide)

/-- C10: for every input, `_normalize_team_name` produces a canonical
join key: either empty or `[a-z0-9]+` words joined by exactly one space,
with no leading or trailing whitespace. -/
theorem normalize_team_name_canonical (name : Option String) :
    isCanonicalKey (_normalize_team_name name) = true := by
  cases name with
  | none => rfl
  | some s =>
    by_cases hs : s = ""
    · subst hs; rfl
    · have h1 : _normalize_team_name (some s) =
          String.mk (stripEnds (collapseSpaces (collapseNonAlnum
            (subStopTokens
              (((s.data.map nfkdChar).flatten.filter
                  fun ch => !isCombiningChar ch).map pyLowerChar))))) := by
        simp only [_normalize_team_name]
        rw [if_neg hs]
      rw [h1]
      have hshape := collapseNonAlnum_shape (subStopTokens
        (((s.data.map nfkdChar).flatten.filter
            fun ch => !isCombiningChar ch).map pyLowerChar))
      show canonState 0 (stripEnds (collapseSpaces (collapseNonAlnum
        (subStopTokens
          (((s.data.map nfkdChar).flatten.filter
              fun ch => !isCombiningChar ch).map pyLowerChar))))) = true
      rw [collapseSpaces_of_CAShape _ hshape]
      exact stripEnds_canonical hshape

/-! ## Tabular model of the pandas frames -/

/-- One row of the flattened odds / fixtures frames produced by
`fetch_champions_league_odds` and `get_upcoming_cl_matches`.  Fields
model the pandas columns; `none` models a null (NaN) entry or an absent
column.  Timestamps are modeled as integers, prices and goal lines as
rationals. -/
structure Row where
  event_id : Option String := none
  commence_time : Option Int := none
  home_team : Option String := none
  away_team : Option String := none
  bookmaker_key : Option String := none
  bookmaker_last_update : Option Int := none
  market_key : Option String := none
  outcome_name : Option String := none
  outcome_price : Option ℚ := none
  outcome_point : Option ℚ := none
  matchday : Option Int := none
  stage : Option String := none
  kickoff_local : Option String := none
  utcDate : Option Int := none
  home_norm : Option String := none
  away_norm : Option String := none
  fixture_home_team : Option String := none
  fixture_away_team : Option String := none
  outcome_label : Option String := none
  deriving DecidableEq, Repr

/-- Insert into a sorted list (the sorting primitive of the model; kept
structurally recursive so that it evaluates inside the kernel). -/
def insertLe {α : Type} (le : α → α → Bool) (a : α) : List α → List α
  | [] => [a]
  | b :: bs => if le a b then a :: b :: bs else b :: insertLe le a bs

/-- Insertion sort, modeling the sorted outputs of pandas
(`sort_values`, sorted `groupby` keys, `sorted(...)`). -/
def sortLe {α : Type} (le : α → α → Bool) : List α → List α
  | [] => []
  | a :: as => insertLe le a (sortLe le as)

theorem insertLe_perm {α : Type} (le : α → α → Bool) (a : α) :
    ∀ (l : List α), List.Perm (insertLe le a l) (a :: l) := by
  intro l
  induction l with
  | nil => exact List.Perm.refl _
  | cons b bs ih =>
    unfold insertLe
    by_cases h : le a b
    · rw [if_pos h]
    · rw [if_neg h]
      exact (List.Perm.cons b ih).trans (List.Perm.swap a b bs)

theorem sortLe_perm {α : Type} (le : α → α → Bool) :
    ∀ (l : List α), List.Perm (sortLe le l) l := by
  intro l
  induction l with
  | nil => exact List.Perm.refl _
  | cons a as ih => exact (insertLe_perm le a _).trans (List.Perm.cons a ih)

theorem insertLe_sorted {α : Type} (le : α → α → Bool)
    (trans : ∀ a b c, le a b → le b c → le a c)
    (total : ∀ a b, le a b || le b a) (a : α) :
    ∀ (l : List α), List.Pairwise (fun x y => le x y = true) l →
      List.Pairwise (fun x y => le x y = true) (insertLe le a l) := by
  intro l
  induction l with
  | nil => intro _; exact List.pairwise_singleton _ _
  | cons b bs ih =>
    intro hp
    unfold insertLe
    by_cases h : le a b = true
    · rw [if_pos h]
      refine List.Pairwise.cons ?_ hp
      intro y hy
      rcases List.mem_cons.mp hy with rfl | hy
      · exact h
      · exact trans a b y h ((List.pairwise_cons.mp hp).1 y hy)
    · rw [if_neg h]
      have hba : le b a = true := by
        have htot := total a b
        rw [Bool.or_eq_true] at htot
        rcases htot with h2 | h2
        · exact absurd h2 h
        · exact h2
      refine List.Pairwise.cons ?_ (ih (List.pairwise_cons.mp hp).2)
      intro y hy
      have hmem := (insertLe_perm le a bs).mem_iff.mp hy
      rcases List.mem_cons.mp hmem with rfl | hy2
      · exact hba
      · exact (List.pairwise_cons.mp hp).1 y hy2

theorem sortLe_sorted {α : Type} (le : α → α → Bool)
    (trans : ∀ a b c, le a b → le b c → le a c)
    (total : ∀ a b, le a b || le b a) :
    ∀ (l : List α), List.Pairwise (fun x y => le x y = true) (sortLe le l) := by
  intro l
  induction l with
  | nil => exact List.Pairwise.nil
  | cons a as ih => exact insertLe_sorted le trans total a _ ih

theorem sortLe_of_sorted {α : Type} (le : α → α → Bool) :
    ∀ (l : List α), List.Pairwise (fun x y => le x y = true) l →
      sortLe le l = l := by
  intro l
  induction l with
  | nil => intro _; rfl
  | cons a as ih =>
    intro hp
    show insertLe le a (sortLe le as) = a :: as
    rw [ih (List.pairwise_cons.mp hp).2]
    cases as with
    | nil => rfl
    | cons b bs =>
      show (if le a b then a :: b :: bs else b :: insertLe le a bs) = _
      rw [if_pos ((List.pairwise_cons.mp hp).1 b (List.mem_cons_self _ _))]

/-- pandas `Series.median()` for a list of values: middle element of the
sorted list, or the mean of the two middle elements. -/
def medianQ (xs : List ℚ) : ℚ :=
  let s := sortLe (fun a b => decide (a ≤ b)) xs
  let n := s.length
  if n % 2 = 1 then s.getD (n / 2) 0
  else (s.getD (n / 2 - 1) 0 + s.getD (n / 2) 0) / 2

/-- pandas `Series.median()` with NaN skipping: `none` when no non-null
value is present. -/
def medianOpt (xs : List (Option ℚ)) : Option ℚ :=
  let vs := xs.filterMap id
  if vs.isEmpty then none else some (medianQ vs)

/-- pandas `Series.nunique()`: the number of distinct non-null values. -/
def nuniqueStr (xs : List (Option String)) : ℕ :=
  (xs.filterMap id).dedup.length

/-- pandas `Series.max()` with NaN skipping: `none` when no non-null
value is present. -/
def maxOptInt (xs : List (Option Int)) : Option Int :=
  (xs.filterMap id).max?

/-- `df["home_norm"] = df["home_team"].apply(_normalize_team_name)`. -/
def addHomeNorm (f : List Row) : List Row :=
  f.map fun r => { r with home_norm := some (_normalize_team_name r.home_team) }

/-- `df["away_norm"] = df["away_team"].apply(_normalize_team_name)`. -/
def addAwayNorm (f : List Row) : List Row :=
  f.map fun r => { r with away_norm := some (_normalize_team_name r.away_team) }

/-- The fixture-side frame `fixtures_subset` (lines 147-162): column
selection plus renaming `home_team` / `away_team` to
`fixture_home_team` / `fixture_away_team`. -/
def fixtureSubsetRow (r : Row) : Row :=
  { home_norm := r.home_norm
    away_norm := r.away_norm
    matchday := r.matchday
    stage := r.stage
    kickoff_local := r.kickoff_local
    fixture_home_team := r.home_team
    fixture_away_team := r.away_team }

/-- `odds.drop(columns=["home_team", "away_team"])` (line 164). -/
def dropTeamCols (r : Row) : Row :=
  { r with home_team := none, away_team := none }

/-- One output row of
`odds.merge(fixtures_subset, on=["home_norm", "away_norm"], how="inner")`:
the odds columns together with the fixture columns. -/
def mergeRow (o f : Row) : Row :=
  { o with
    matchday := f.matchday
    stage := f.stage
    kickoff_local := f.kickoff_local
    fixture_home_team := f.fixture_home_team
    fixture_away_team := f.fixture_away_team }

/-- The inner merge on `(home_norm, away_norm)`: for each odds row in
order, all fixture rows with equal join keys. -/
def innerMergeOnNorm (odds fixtures : List Row) : List Row :=
  odds.flatMap fun o =>
    (fixtures.filter fun f =>
      decide (f.home_norm = o.home_norm ∧ f.away_norm = o.away_norm)).map
      (mergeRow o)

/-- `odds[odds["market_key"] == mk]`: a null market key never equals a
string. -/
def filterMarket (mk : String) (odds : List Row) : List Row :=
  odds.filter fun r => decide (r.market_key = some mk)

/-- The prepared odds side of the moneyline join (lines 140-145, 164):
filter to `h2h`, add the normalized keys, drop the raw team columns. -/
def mlOddsPrepped (odds : List Row) : List Row :=
  (addAwayNorm (addHomeNorm (filterMarket "h2h" odds))).map dropTeamCols

/-- The prepared fixture side of the join (lines 136-162). -/
def mlFixturesPrepped (fixtures : List Row) : List Row :=
  (addAwayNorm (addHomeNorm fixtures)).map fixtureSubsetRow

/-- The moneyline join `merged` (lines 166-170). -/
def mlMerged (fixtures odds : List Row) : List Row :=
  innerMergeOnNorm (mlOddsPrepped odds) (mlFixturesPrepped fixtures)

/-- `_map_outcome` (lines 174-182): label a merged quote as
`Mandante` / `Visitante` / `Empate` by comparing the normalized outcome
name with the join keys or the draw synonyms `{"draw", "empate"}`. -/
def mapOutcome (r : Row) : Option String :=
  let outcomeNorm := _normalize_team_name r.outcome_name
  if some outcomeNorm = r.home_norm then some "Mandante"
  else if some outcomeNorm = r.away_norm then some "Visitante"
  else if outcomeNorm = "draw" ∨ outcomeNorm = "empate" then some "Empate"
  else none

/-- The merged frame after the `outcome_label` assignment and the
`notna()` filter (lines 184-185). -/
def mlLabeled (fixtures odds : List Row) : List Row :=
  ((mlMerged fixtures odds).map fun r =>
    { r with outcome_label := mapOutcome r }).filter
    fun r => r.outcome_label.isSome

/-- `merged.groupby("outcome_label")["outcome_price"].median()` as an
association list from group label to group median. -/
def groupMedians (rows : List Row) : List (String × Option ℚ) :=
  ((rows.filterMap fun r => r.outcome_label).dedup).map fun lab =>
    (lab, medianOpt ((rows.filter fun r =>
      decide (r.outcome_label = some lab)).map fun r => r.outcome_price))

/-- `grouped.get(label)`: `None` when the label has no group. -/
def groupGet (g : List (String × Option ℚ)) (lab : String) : Option ℚ :=
  (g.lookup lab).join

/-- The single summary row produced by `build_moneyline_summary`
(lines 196-206).  The `Partida` f-string is kept as the pair of fixture
team names, and the `Atualizado` display formatting is not modeled: the
raw maximum timestamp is kept. -/
structure MoneylineSummary where
  rodada : Option Int
  fase : Option String
  dataBr : Option String
  partidaHome : Option String
  partidaAway : Option String
  casas : ℕ
  atualizado : Option Int
  mandante : Option ℚ
  empate : Option ℚ
  visitante : Option ℚ
  deriving DecidableEq, Repr

/-- `build_moneyline_summary` (app/streamlit_app.py, lines 132-208);
`none` models the returned empty frame. -/
def build_moneyline_summary (fixtures_df odds_df : List Row) :
    Option MoneylineSummary :=
  if fixtures_df.isEmpty || odds_df.isEmpty then none
  else if (filterMarket "h2h" odds_df).isEmpty then none
  else if (mlMerged fixtures_df odds_df).isEmpty then none
  else
    match mlLabeled fixtures_df odds_df with
    | [] => none
    | matchInfo :: rest =>
      some {
        rodada := matchInfo.matchday
        fase := matchInfo.stage
        dataBr := matchInfo.kickoff_local
        partidaHome := matchInfo.fixture_home_team
        partidaAway := matchInfo.fixture_away_team
        casas := nuniqueStr ((matchInfo :: rest).map fun r => r.bookmaker_key)
        atualizado := maxOptInt ((matchInfo :: rest).map
          fun r => r.bookmaker_last_update)
        mandante := groupGet (groupMedians (matchInfo :: rest)) "Mandante"
        empate := groupGet (groupMedians (matchInfo :: rest)) "Empate"
        visitante := groupGet (groupMedians (matchInfo :: rest)) "Visitante" }

/-! ## Totals table -/

/-- ASCII letters, for the `str.title()` model. -/
def isAsciiAlpha (c : Char) : Bool :=
  (65 ≤ c.toNat && c.toNat ≤ 90) || (97 ≤ c.toNat && c.toNat ≤ 122)

/-- ASCII uppercase. -/
def toUpperAscii (c : Char) : Char :=
  if 97 ≤ c.toNat && c.toNat ≤ 122 then Char.ofNat (c.toNat - 32) else c

/-- Python `str.title()` (ASCII model): a letter following a non-letter
is uppercased, every other letter is lowercased. -/
def pyTitleAux (prevAlpha : Bool) : List Char → List Char
  | [] => []
  | c :: rest =>
    if isAsciiAlpha c then
      (if prevAlpha then pyLowerChar c else toUpperAscii c) ::
        pyTitleAux true rest
    else c :: pyTitleAux false rest

/-- Python `str.title()` as used by `rename(columns=lambda c: c.title())`
(line 254). -/
def pyTitle (s : String) : String := String.mk (pyTitleAux false s.data)

/-- The prepared odds side of the totals join (lines 219-224, 243). -/
def ttOddsPrepped (odds : List Row) : List Row :=
  (addAwayNorm (addHomeNorm (filterMarket "totals" odds))).map dropTeamCols

/-- The totals join `merged` (line 245). -/
def ttMerged (fixtures odds : List Row) : List Row :=
  innerMergeOnNorm (ttOddsPrepped odds) (mlFixturesPrepped fixtures)

/-- The rows entering
`merged.groupby(["outcome_point", "outcome_name"])`: pandas drops rows
with a null key. -/
def ttGroupRows (rows : List Row) : List Row :=
  rows.filter fun r => r.outcome_point.isSome && r.outcome_name.isSome

/-- The distinct goal lines of the pivot, ascending (pandas `groupby`
sorts its keys, and the final `sort_values("Linha (gols)")` keeps the
ascending order). -/
def ttPoints (rows : List Row) : List ℚ :=
  sortLe (fun a b => decide (a ≤ b))
    ((ttGroupRows rows).filterMap fun r => r.outcome_point).dedup

/-- The pivot cell at `(point, col)` after the `title()` column rename:
the median price over the groups at this goal line whose titled outcome
name is `col`.  (Distinct raw names with the same title, which real
pandas would keep as duplicate columns, are merged here.) -/
def ttCell (rows : List Row) (point : ℚ) (col : String) : Option ℚ :=
  medianOpt (((ttGroupRows rows).filter fun r =>
    decide (r.outcome_point = some point ∧
      r.outcome_name.map pyTitle = some col)).map fun r => r.outcome_price)

/-- The pivot column labels after the `title()` rename. -/
def ttColumns (rows : List Row) : List String :=
  (((ttGroupRows rows).filterMap fun r => r.outcome_name).map pyTitle).dedup

/-- `merged.groupby("outcome_point")["bookmaker_key"].nunique()`
(line 258), evaluated at one goal line. -/
def ttCount (rows : List Row) (point : ℚ) : ℕ :=
  nuniqueStr ((rows.filter fun r =>
    decide (r.outcome_point = some point)).map fun r => r.bookmaker_key)

/-- `merged.groupby("outcome_point")["bookmaker_last_update"].max()`
(line 259), evaluated at one goal line. -/
def ttLastUpdate (rows : List Row) (point : ℚ) : Option Int :=
  maxOptInt ((rows.filter fun r =>
    decide (r.outcome_point = some point)).map fun r => r.bookmaker_last_update)

/-- One output line of the totals table (per goal line). -/
structure TotalsRow where
  linha : ℚ
  over : Option ℚ
  under : Option ℚ
  casas : ℕ
  atualizado : Option Int
  deriving DecidableEq, Repr

/-- The totals table (lines 260-286): the match columns are constant over
all lines and kept once. -/
structure TotalsTable where
  rodada : Option Int
  fase : Option String
  dataBr : Option String
  partidaHome : Option String
  partidaAway : Option String
  rows : List TotalsRow
  deriving DecidableEq, Repr

/-- `build_totals_table` (app/streamlit_app.py, lines 211-286).
`Except.error` models the `KeyError` raised by the final column
selection when the pivot lacks an `Over` or `Under` column;
`Except.ok none` models the returned empty frame. -/
def build_totals_table (fixtures_df odds_df : List Row) :
    Except String (Option TotalsTable) :=
  if fixtures_df.isEmpty || odds_df.isEmpty then .ok none
  else if (filterMarket "totals" odds_df).isEmpty then .ok none
  else
    match ttMerged fixtures_df odds_df with
    | [] => .ok none
    | matchRow :: rest =>
      if (ttGroupRows (matchRow :: rest)).isEmpty then .ok none
      else if "Over" ∈ ttColumns (matchRow :: rest) ∧
          "Under" ∈ ttColumns (matchRow :: rest) then
        .ok (some {
          rodada := matchRow.matchday
          fase := matchRow.stage
          dataBr := matchRow.kickoff_local
          partidaHome := matchRow.fixture_home_team
          partidaAway := matchRow.fixture_away_team
          rows := (ttPoints (matchRow :: rest)).map fun p =>
            { linha := p
              over := ttCell (matchRow :: rest) p "Over"
              under := ttCell (matchRow :: rest) p "Under"
              casas := ttCount (matchRow :: rest) p
              atualizado := ttLastUpdate (matchRow :: rest) p } })
      else .error "KeyError"

/-! ## Odds overview and the debug swapped lookup -/

/-- One row of `_build_odds_overview` (lines 97-113). -/
structure OverviewRow where
  event_id : String
  commence_time : Option Int
  home_team : Option String
  away_team : Option String
  markets : List String
  bookmakers : ℕ
  home_norm : String
  away_norm : String
  deriving DecidableEq, Repr

/-- `_build_odds_overview` (lines 97-113): one row per event id (pandas
`groupby` drops null ids and sorts the keys), with the first non-null
team names, the normalized keys, the sorted market set and the distinct
bookmaker count. -/
def _build_odds_overview (odds_df : List Row) : List OverviewRow :=
  if odds_df.isEmpty then []
  else
    (sortLe (fun a b => decide (a ≤ b))
      ((odds_df.filterMap fun r => r.event_id).dedup)).map fun eid =>
      let grp := odds_df.filter fun r => decide (r.event_id = some eid)
      let homeTeam := (grp.filterMap fun r => r.home_team).head?
      let awayTeam := (grp.filterMap fun r => r.away_team).head?
      { event_id := eid
        commence_time := maxOptInt (grp.map fun r => r.commence_time)
        home_team := homeTeam
        away_team := awayTeam
        markets := sortLe (fun a b => decide (a ≤ b))
          ((grp.filterMap fun r => r.market_key).dedup)
        bookmakers := nuniqueStr (grp.map fun r => r.bookmaker_key)
        home_norm := _normalize_team_name homeTeam
        away_norm := _normalize_team_name awayTeam }

/-- Debug exact lookup (line 701): overview events whose normalized keys
equal the fixture keys in order. -/
def exactLookup (fixtureHome fixtureAway : String)
    (ov : List OverviewRow) : List OverviewRow :=
  ov.filter fun r =>
    decide (r.home_norm = fixtureHome ∧ r.away_norm = fixtureAway)

/-- Debug swapped lookup (line 702): overview events whose normalized
keys match the fixture keys with home and away reversed. -/
def swappedLookup (fixtureHome fixtureAway : String)
    (ov : List OverviewRow) : List OverviewRow :=
  ov.filter fun r =>
    decide (r.home_norm = fixtureAway ∧ r.away_norm = fixtureHome)

/-! ## Fixture selection -/

/-- Comparison used by `sort_values("utcDate")`: ascending, null
timestamps last. -/
def dateLE (r s : Row) : Bool :=
  match r.utcDate, s.utcDate with
  | some a, some b => decide (a ≤ b)
  | some _, none => true
  | none, some _ => false
  | none, none => true

/-- `df.sort_values("utcDate")`. -/
def sortByDate (ms : List Row) : List Row := sortLe dateLE ms

/-- The next-round selection of `get_upcoming_cl_matches`
(app/streamlit_app.py, lines 69-81): restrict to matches with both teams
assigned; take all matches at the minimum matchday present; with no
matchday values, the 20 chronologically earliest team-assigned matches;
with no team-assigned matches at all, the 20 chronologically earliest
matches; finally sort the selection by kickoff. -/
def selectUpcoming (ms : List Row) : List Row :=
  let valids := ms.filter fun r => r.home_team.isSome && r.away_team.isSome
  let target :=
    if valids.isEmpty then (sortByDate ms).take 20
    else
      match (valids.filterMap fun r => r.matchday).min? with
      | some m => valids.filter fun r => decide (r.matchday = some m)
      | none => (sortByDate valids).take 20
  sortByDate target

/-! ## Short-circuiting on empty intermediate results -/

theorem bml_none_of_empty {f o : List Row} (h : f = [] ∨ o = []) :
    build_moneyline_summary f o = none := by
  unfold build_moneyline_summary
  rcases h with h | h <;> subst h <;> simp

theorem bml_none_of_nomarket {f o : List Row}
    (h : filterMarket "h2h" o = []) :
    build_moneyline_summary f o = none := by
  unfold build_moneyline_summary
  rw [h]
  simp

theorem mlLabeled_nil_of_merged_nil {f o : List Row}
    (h : mlMerged f o = []) : mlLabeled f o = [] := by
  unfold mlLabeled
  rw [h]
  rfl

theorem bml_none_of_merged_nil {f o : List Row}
    (h : mlMerged f o = []) : build_moneyline_summary f o = none := by
  unfold build_moneyline_summary
  rw [h, mlLabeled_nil_of_merged_nil h]
  simp

theorem bml_none_of_labeled_nil {f o : List Row}
    (h : mlLabeled f o = []) : build_moneyline_summary f o = none := by
  unfold build_moneyline_summary
  rw [h]
  simp

theorem btt_ok_none_of_empty {f o : List Row} (h : f = [] ∨ o = []) :
    build_totals_table f o = .ok none := by
  unfold build_totals_table
  rcases h with h | h <;> subst h <;> simp

theorem btt_ok_none_of_nomarket {f o : List Row}
    (h : filterMarket "totals" o = []) :
    build_totals_table f o = .ok none := by
  unfold build_totals_table
  rw [h]
  simp

theorem btt_ok_none_of_merged_nil {f o : List Row}
    (h : ttMerged f o = []) : build_totals_table f o = .ok none := by
  unfold build_totals_table
  rw [h]
  simp

theorem btt_ok_none_of_groups_nil {f o : List Row}
    (h : ttGroupRows (ttMerged f o) = []) :
    build_totals_table f o = .ok none := by
  cases hm : ttMerged f o with
  | nil => exact btt_ok_none_of_merged_nil hm
  | cons r t =>
    rw [hm] at h
    unfold build_totals_table
    rw [hm]
    simp [h]

/-- C7: each empty intermediate stage of the moneyline or totals
reconciler (empty fixtures, empty odds, no quotes in the requested
market, empty join, no mappable outcomes / no pivot groups)
short-circuits to an empty result and no error. -/
theorem reconcile_empty_short_circuit (f o : List Row) :
    ((f = [] ∨ o = []) →
      build_moneyline_summary f o = none ∧
      build_totals_table f o = .ok none) ∧
    (filterMarket "h2h" o = [] → build_moneyline_summary f o = none) ∧
    (mlMerged f o = [] → build_moneyline_summary f o = none) ∧
    (mlLabeled f o = [] → build_moneyline_summary f o = none) ∧
    (filterMarket "totals" o = [] → build_totals_table f o = .ok none) ∧
    (ttMerged f o = [] → build_totals_table f o = .ok none) ∧
    (ttGroupRows (ttMerged f o) = [] → build_totals_table f o = .ok none) :=
  ⟨fun h => ⟨bml_none_of_empty h, btt_ok_none_of_empty h⟩,
   bml_none_of_nomarket, bml_none_of_merged_nil, bml_none_of_labeled_nil,
   btt_ok_none_of_nomarket, btt_ok_none_of_merged_nil,
   btt_ok_none_of_groups_nil⟩

/-- Closed witness for `reconcile_empty_short_circuit`, at empty
fixtures. -/
theorem reconcile_empty_short_circuit_witness :
    build_moneyline_summary [] [({ market_key := some "h2h" } : Row)] = none ∧
    build_totals_table [] [({ market_key := some "totals" } : Row)] =
      .ok none :=
  ⟨((reconcile_empty_short_circuit [] _).1 (Or.inl rfl)).1,
   ((reconcile_empty_short_circuit [] _).1 (Or.inl rfl)).2⟩

/-! ## Swapped-side matching is diagnostic only -/

/-- C4: the production reconciliation joins only on the exact
`(home_norm, away_norm)` pair: a quote whose keys match a fixture only
with home and away swapped joins to nothing and contributes to no
summary row, while the debug `swappedLookup` finds its overview row. -/
theorem swapped_match_diagnostic_only (f q : Row)
    (h1 : _normalize_team_name q.home_team = _normalize_team_name f.away_team)
    (h2 : _normalize_team_name q.away_team = _normalize_team_name f.home_team)
    (h3 : _normalize_team_name f.home_team ≠
      _normalize_team_name f.away_team) :
    mlMerged [f] [q] = [] ∧ ttMerged [f] [q] = [] ∧
    build_moneyline_summary [f] [q] = none ∧
    build_totals_table [f] [q] = Except.ok none ∧
    (q.event_id.isSome →
      swappedLookup (_normalize_team_name f.home_team)
        (_normalize_team_name f.away_team) (_build_odds_overview [q]) ≠ []) := by
  have hkey : ¬(some (_normalize_team_name f.home_team) =
      some (_normalize_team_name q.home_team)) := by
    rw [h1]
    intro hcon
    exact h3 (Option.some.inj hcon)
  have hml : mlMerged [f] [q] = [] := by
    unfold mlMerged innerMergeOnNorm mlOddsPrepped mlFixturesPrepped
      addHomeNorm addAwayNorm filterMarket dropTeamCols fixtureSubsetRow
    by_cases hm : q.market_key = some "h2h"
    · simp [hm, hkey]
    · simp [hm]
  have htt : ttMerged [f] [q] = [] := by
    unfold ttMerged innerMergeOnNorm ttOddsPrepped mlFixturesPrepped
      addHomeNorm addAwayNorm filterMarket dropTeamCols fixtureSubsetRow
    by_cases hm : q.market_key = some "totals"
    · simp [hm, hkey]
    · simp [hm]
  refine ⟨hml, htt, bml_none_of_merged_nil hml, btt_ok_none_of_merged_nil htt, ?_⟩
  intro he hcon
  rcases Option.isSome_iff_exists.mp he with ⟨e, he2⟩
  have hhome : (([q].filterMap fun r => r.home_team).head?) = q.home_team := by
    cases hq : q.home_team <;> simp [hq]
  have haway : (([q].filterMap fun r => r.away_team).head?) = q.away_team := by
    cases hq : q.away_team <;> simp [hq]
  unfold _build_odds_overview swappedLookup at hcon
  simp only [List.isEmpty_cons, if_false, Bool.false_eq_true] at hcon
  rw [show ([q].filterMap fun r => r.event_id) = [e] by simp [he2]] at hcon
  rw [show (sortLe (fun a b => decide (a ≤ b)) [e].dedup) = [e] by
    rw [List.dedup_cons_of_not_mem (by simp), List.dedup_nil]
    rfl] at hcon
  simp only [List.map_cons, List.map_nil] at hcon
  rw [show (List.filter (fun r => decide (r.event_id = some e)) [q]) = [q] by
    simp [he2]] at hcon
  simp only [hhome, haway, h1, h2, List.filter_cons, List.filter_nil] at hcon
  simp at hcon

/-- Concrete fixture for the swapped-match witness. -/
def c4fixture : Row :=
  { home_team := some "Inter", away_team := some "Real Madrid"
    matchday := some 3, stage := some "LEAGUE_STAGE"
    kickoff_local := some "05/11 17:00" }

/-- Concrete odds quote whose home/away pair is the reverse of
`c4fixture`. -/
def c4quote : Row :=
  { event_id := some "ev9", home_team := some "Real Madrid CF"
    away_team := some "Inter", bookmaker_key := some "bk1"
    bookmaker_last_update := some 77, market_key := some "h2h"
    outcome_name := some "Inter", outcome_price := some 2 }

/-- Closed witness for `swapped_match_diagnostic_only`. -/
theorem swapped_match_diagnostic_only_witness :
    mlMerged [c4fixture] [c4quote] = [] ∧
    build_moneyline_summary [c4fixture] [c4quote] = none ∧
    build_totals_table [c4fixture] [c4quote] = Except.ok none ∧
    swappedLookup (_normalize_team_name c4fixture.home_team)
      (_normalize_team_name c4fixture.away_team)
      (_build_odds_overview [c4quote]) ≠ [] := by
  have h := swapped_match_diagnostic_only c4fixture c4quote
    (by decide) (by decide) (by decide)
  exact ⟨h.1, h.2.2.1, h.2.2.2.1, h.2.2.2.2 (by decide)⟩

/-! ## Fixture selection -/

theorem dateLE_total (a b : Row) : dateLE a b || dateLE b a := by
  unfold dateLE
  cases a.utcDate <;> cases b.utcDate <;> (simp; try omega)

theorem dateLE_trans (a b c : Row) :
    dateLE a b → dateLE b c → dateLE a c := by
  unfold dateLE
  cases a.utcDate <;> cases b.utcDate <;> cases c.utcDate <;>
    (simp; try omega)

/-- C5: the fixture selection always returns matches ordered by kickoff;
with team-assigned matches and a minimum matchday present it returns
exactly the matches at that matchday; with team-assigned matches but no
matchday values it returns the 20 chronologically earliest team-assigned
matches; with no team-assigned matches it returns the 20 chronologically
earliest matches overall. -/
theorem select_upcoming_spec (ms : List Row) :
    List.Pairwise (fun a b => dateLE a b = true) (selectUpcoming ms) ∧
    (∀ m : Int,
      (((ms.filter fun r => r.home_team.isSome && r.away_team.isSome).filterMap
        fun r => r.matchday).min? = some m) →
      (selectUpcoming ms).Perm
        ((ms.filter fun r => r.home_team.isSome && r.away_team.isSome).filter
          fun r => decide (r.matchday = some m))) ∧
    ((ms.filter fun r => r.home_team.isSome && r.away_team.isSome) ≠ [] →
      (((ms.filter fun r => r.home_team.isSome && r.away_team.isSome).filterMap
        fun r => r.matchday).min? = none) →
      selectUpcoming ms = (sortByDate (ms.filter
        fun r => r.home_team.isSome && r.away_team.isSome)).take 20) ∧
    ((ms.filter fun r => r.home_team.isSome && r.away_team.isSome) = [] →
      selectUpcoming ms = (sortByDate ms).take 20) := by
  refine ⟨?_, ?_, ?_, ?_⟩
  · unfold selectUpcoming sortByDate
    exact sortLe_sorted dateLE dateLE_trans dateLE_total _
  · intro m hmin
    have hne : (ms.filter fun r =>
        r.home_team.isSome && r.away_team.isSome).isEmpty = false := by
      cases hv : ms.filter fun r => r.home_team.isSome && r.away_team.isSome
      · rw [hv] at hmin
        simp [List.min?] at hmin
      · rfl
    unfold selectUpcoming sortByDate
    dsimp only
    rw [if_neg (by simp [hne]), hmin]
    exact sortLe_perm dateLE _
  · intro hne hmin
    have hne2 : (ms.filter fun r =>
        r.home_team.isSome && r.away_team.isSome).isEmpty = false := by
      cases hv : ms.filter fun r => r.home_team.isSome && r.away_team.isSome
      · exact absurd hv hne
      · rfl
    unfold selectUpcoming sortByDate
    dsimp only
    rw [if_neg (by simp [hne2]), hmin]
    exact sortLe_of_sorted dateLE _
      ((sortLe_sorted dateLE dateLE_trans dateLE_total _).sublist
        (List.take_sublist _ _))
  · intro hnil
    unfold selectUpcoming sortByDate
    dsimp only
    rw [if_pos (by simp [hnil])]
    exact sortLe_of_sorted dateLE _
      ((sortLe_sorted dateLE dateLE_trans dateLE_total _).sublist
        (List.take_sublist _ _))

/-- The four scheduled matches of the C5 example: matchdays 2, 2, 3 and
null, all with both teams assigned except the null-matchday one. -/
def c5matches : List Row :=
  [{ home_team := some "A", away_team := some "B", matchday := some 3,
     utcDate := some 5 },
   { home_team := some "C", away_team := some "D", matchday := some 2,
     utcDate := some 9 },
   { home_team := some "E", away_team := some "F", matchday := some 2,
     utcDate := some 7 },
   { home_team := some "G", away_team := some "H", matchday := none,
     utcDate := some 1 }]

/-- Closed witness for `select_upcoming_spec`: the minimum-matchday
branch on the `[2, 2, 3, null]` example. -/
theorem select_upcoming_spec_witness :
    (selectUpcoming c5matches).Perm
      ((c5matches.filter fun r =>
        r.home_team.isSome && r.away_team.isSome).filter
        fun r => decide (r.matchday = some 2)) ∧
    List.Pairwise (fun a b => dateLE a b = true) (selectUpcoming c5matches) :=
  ⟨(select_upcoming_spec c5matches).2.1 2 (by decide),
   (select_upcoming_spec c5matches).1⟩

/-! ## Moneyline aggregation against the spec -/

/-- C1 spec side: the retained quotes — joined quotes whose outcome name
maps to one of the three labels. -/
def specRetained (fixtures odds : List Row) : List Row :=
  (mlMerged fixtures odds).filter fun r => (mapOutcome r).isSome

/-- C1 spec side: the prices of the retained joined quotes carrying a
given label. -/
def specLabelPrices (fixtures odds : List Row) (lab : String) :
    List (Option ℚ) :=
  ((mlMerged fixtures odds).filter fun r =>
    decide (mapOutcome r = some lab)).map fun r => r.outcome_price

theorem lookup_map_self {α : Type} (f : String → α) :
    ∀ (ys : List String) (lab : String),
    ((ys.map fun l => (l, f l)).lookup lab) =
      if lab ∈ ys then some (f lab) else none := by
  intro ys
  induction ys with
  | nil => intro lab; rfl
  | cons y t ih =>
    intro lab
    by_cases h : lab = y
    · subst h
      simp [List.lookup]
    · have hbe : (lab == y) = false := by simp [h]
      simp [List.lookup, hbe, ih, h]

theorem groupGet_eq_median (rows : List Row) (lab : String) :
    groupGet (groupMedians rows) lab =
    medianOpt ((rows.filter fun r =>
      decide (r.outcome_label = some lab)).map fun r => r.outcome_price) := by
  unfold groupGet groupMedians
  rw [lookup_map_self]
  by_cases h : lab ∈ (rows.filterMap fun r => r.outcome_label).dedup
  · rw [if_pos h]
    rfl
  · rw [if_neg h]
    have hnil : (rows.filter fun r =>
        decide (r.outcome_label = some lab)) = [] := by
      rw [List.filter_eq_nil_iff]
      intro r hr hcon
      apply h
      rw [List.mem_dedup]
      exact List.mem_filterMap.mpr ⟨r, hr, of_decide_eq_true hcon⟩
    rw [hnil]
    rfl

theorem mlLabeled_label_prices (fixtures odds : List Row) (lab : String) :
    ((mlLabeled fixtures odds).filter
      (fun r => decide (r.outcome_label = some lab))).map
      (fun r => r.outcome_price) = specLabelPrices fixtures odds lab := by
  unfold mlLabeled specLabelPrices
  generalize mlMerged fixtures odds = l
  induction l with
  | nil => rfl
  | cons r t ih =>
    simp only [List.map_cons, List.filter_cons]
    cases hmo : mapOutcome r with
    | none => simpa [hmo] using ih
    | some lab0 =>
      by_cases hl : lab0 = lab
      · subst hl
        simpa [hmo] using ih
      · simpa [hmo, hl] using ih

theorem mlLabeled_map_proj {α : Type} (g : Row → α)
    (hg : ∀ (r : Row) (x : Option String),
      g { r with outcome_label := x } = g r) (fixtures odds : List Row) :
    (mlLabeled fixtures odds).map g = (specRetained fixtures odds).map g := by
  unfold mlLabeled specRetained
  generalize mlMerged fixtures odds = l
  induction l with
  | nil => rfl
  | cons r t ih =>
    simp only [List.map_cons, List.filter_cons]
    cases hmo : mapOutcome r with
    | none => simpa [hmo] using ih
    | some lab0 => simpa [hmo, hg] using ih

/-- C1: every produced moneyline summary reports, per label, the median
price of the retained joined quotes whose normalized outcome name maps
to that label (home key → `Mandante`, away key → `Visitante`, draw
synonyms → `Empate`; unmapped quotes are discarded), together with the
distinct bookmaker count and the maximum last-update timestamp over all
retained quotes. -/
theorem moneyline_summary_spec (fixtures odds : List Row)
    (s : MoneylineSummary)
    (h : build_moneyline_summary fixtures odds = some s) :
    s.mandante = medianOpt (specLabelPrices fixtures odds "Mandante") ∧
    s.empate = medianOpt (specLabelPrices fixtures odds "Empate") ∧
    s.visitante = medianOpt (specLabelPrices fixtures odds "Visitante") ∧
    s.casas = nuniqueStr ((specRetained fixtures odds).map
      fun r => r.bookmaker_key) ∧
    s.atualizado = maxOptInt ((specRetained fixtures odds).map
      fun r => r.bookmaker_last_update) := by
  unfold build_moneyline_summary at h
  split at h
  · exact absurd h (by simp)
  · split at h
    · exact absurd h (by simp)
    · split at h
      · exact absurd h (by simp)
      · cases hl : mlLabeled fixtures odds with
        | nil => rw [hl] at h; exact absurd h (by simp)
        | cons matchInfo rest =>
          rw [hl] at h
          have hs := (Option.some.inj h).symm
          subst hs
          refine ⟨?_, ?_, ?_, ?_, ?_⟩
          · show groupGet (groupMedians (matchInfo :: rest)) "Mandante" = _
            rw [← hl, groupGet_eq_median, mlLabeled_label_prices]
          · show groupGet (groupMedians (matchInfo :: rest)) "Empate" = _
            rw [← hl, groupGet_eq_median, mlLabeled_label_prices]
          · show groupGet (groupMedians (matchInfo :: rest)) "Visitante" = _
            rw [← hl, groupGet_eq_median, mlLabeled_label_prices]
          · show nuniqueStr ((matchInfo :: rest).map
              fun r => r.bookmaker_key) = _
            rw [← hl, mlLabeled_map_proj (fun r => r.bookmaker_key)
              (fun _ _ => rfl)]
          · show maxOptInt ((matchInfo :: rest).map
              fun r => r.bookmaker_last_update) = _
            rw [← hl, mlLabeled_map_proj (fun r => r.bookmaker_last_update)
              (fun _ _ => rfl)]

/-- Fixture of the C1 example. -/
def c1fixture : Row :=
  { home_team := some "FC Barcelona", away_team := some "Bayern Munich"
    matchday := some 2, stage := some "LEAGUE_STAGE"
    kickoff_local := some "01/10 16:00" }

/-- A moneyline quote of the C1 example. -/
def c1quote (bk nm : String) (price : ℚ) : Row :=
  { event_id := some "ev1", home_team := some "Barcelona"
    away_team := some "Bayern Munich", bookmaker_key := some bk
    bookmaker_last_update := some 50, market_key := some "h2h"
    outcome_name := some nm, outcome_price := some price }

/-- Three bookmakers quoting home-win prices 1.80, 1.90 and 2.00, plus a
draw and an away quote. -/
def c1odds : List Row :=
  [c1quote "bk1" "Barcelona" (mkRat 9 5), c1quote "bk2" "Barcelona" (mkRat 19 10),
   c1quote "bk3" "Barcelona" (mkRat 2 1), c1quote "bk1" "Draw" (mkRat 3 1),
   c1quote "bk1" "Bayern Munich" (mkRat 4 1)]

/-- The summary produced on the C1 example. -/
def c1expected : MoneylineSummary :=
  { rodada := some 2, fase := some "LEAGUE_STAGE"
    dataBr := some "01/10 16:00", partidaHome := some "FC Barcelona"
    partidaAway := some "Bayern Munich", casas := 3, atualizado := some 50
    mandante := some (mkRat 19 10), empate := some (mkRat 3 1)
    visitante := some (mkRat 4 1) }

/-- Closed witness for `moneyline_summary_spec`: with home-win prices
1.80 / 1.90 / 2.00 (as rationals 9/5, 19/10, 2) the summarized home
price is the median 19/10 = 1.90. -/
theorem moneyline_summary_spec_witness :
    build_moneyline_summary [c1fixture] c1odds = some c1expected ∧
    c1expected.mandante =
      medianOpt (specLabelPrices [c1fixture] c1odds "Mandante") ∧
    c1expected.mandante = some (mkRat 19 10) :=
  ⟨by decide,
   (moneyline_summary_spec [c1fixture] c1odds c1expected (by decide)).1,
   by decide⟩

/-! ## Totals pivot against the spec -/

theorem ratLE_trans (a b c : ℚ) :
    decide (a ≤ b) → decide (b ≤ c) → decide (a ≤ c) := by
  intro h1 h2
  exact decide_eq_true (le_trans (of_decide_eq_true h1) (of_decide_eq_true h2))

theorem ratLE_total (a b : ℚ) : decide (a ≤ b) || decide (b ≤ a) := by
  rcases le_total a b with h | h
  · simp [h]
  · simp [h]

/-- A nonempty totals join forces both raw inputs and the
market-filtered odds to be nonempty: a joined row traces back to a
prepared odds row and a prepared fixture row. -/
theorem ttMerged_ne_nil_sources {fixtures odds : List Row}
    (h : ttMerged fixtures odds ≠ []) :
    (fixtures.isEmpty || odds.isEmpty) = false ∧
    (filterMarket "totals" odds).isEmpty = false := by
  rcases List.exists_mem_of_ne_nil _ h with ⟨r, hr⟩
  unfold ttMerged innerMergeOnNorm at hr
  rcases List.mem_flatMap.mp hr with ⟨ob, hob, hrr⟩
  rcases List.mem_map.mp hrr with ⟨fx, hfx, hrfx⟩
  have hfx2 := (List.mem_filter.mp hfx).1
  have hfm : (filterMarket "totals" odds).isEmpty = false := by
    cases hfm0 : filterMarket "totals" odds with
    | nil =>
      unfold ttOddsPrepped addAwayNorm addHomeNorm at hob
      rw [hfm0] at hob
      simp at hob
    | cons a l => rfl
  refine ⟨?_, hfm⟩
  have hfne : fixtures.isEmpty = false := by
    cases hf0 : fixtures with
    | nil =>
      unfold mlFixturesPrepped addAwayNorm addHomeNorm at hfx2
      rw [hf0] at hfx2
      simp at hfx2
    | cons a l => rfl
  have hone : odds.isEmpty = false := by
    cases ho0 : odds with
    | nil =>
      rw [ho0] at hfm
      simp [filterMarket] at hfm
    | cons a l => rfl
  rw [hfne, hone]
  rfl

/-- A pivot column can only come from a group row, so a present column
means the group rows are nonempty. -/
theorem ttColumns_mem_groups_ne_nil {M : List Row} {c : String}
    (h : c ∈ ttColumns M) : (ttGroupRows M).isEmpty = false := by
  unfold ttColumns at h
  cases hg : ttGroupRows M with
  | nil => rw [hg] at h; simp at h
  | cons a l => rfl

/-- Nonempty group rows force a nonempty join (the group rows are a
filter of the joined rows). -/
theorem ttGroupRows_ne_nil_merged {M : List Row}
    (h : (ttGroupRows M).isEmpty = false) : M ≠ [] := by
  intro hnil
  rw [hnil] at h
  simp [ttGroupRows] at h

/-- C3 (amended): whenever the joined totals quotes carry both an `Over`
and an `Under` pivot column, the totals table is produced with exactly
one row per distinct goal line of the joined quotes, strictly ascending,
each row reporting the pivoted Over / Under group medians, the distinct
bookmaker count and the maximum last-update time for its goal line; when
joined group rows exist but one of the two columns is absent, the final
column selection raises a `KeyError` instead of returning a table. -/
theorem totals_table_spec (fixtures odds : List Row) :
    ("Over" ∈ ttColumns (ttMerged fixtures odds) →
     "Under" ∈ ttColumns (ttMerged fixtures odds) →
      ∃ t : TotalsTable,
        build_totals_table fixtures odds = .ok (some t) ∧
        (t.rows.map fun r => r.linha) = ttPoints (ttMerged fixtures odds) ∧
        List.Pairwise (fun a b : ℚ => a < b) (t.rows.map fun r => r.linha) ∧
        (∀ p : ℚ, p ∈ t.rows.map (fun r => r.linha) ↔
          ∃ q ∈ ttGroupRows (ttMerged fixtures odds),
            q.outcome_point = some p) ∧
        ∀ r ∈ t.rows,
          r.over = ttCell (ttMerged fixtures odds) r.linha "Over" ∧
          r.under = ttCell (ttMerged fixtures odds) r.linha "Under" ∧
          r.casas = ttCount (ttMerged fixtures odds) r.linha ∧
          r.atualizado = ttLastUpdate (ttMerged fixtures odds) r.linha) ∧
    ((ttGroupRows (ttMerged fixtures odds)).isEmpty = false →
     ¬("Over" ∈ ttColumns (ttMerged fixtures odds) ∧
       "Under" ∈ ttColumns (ttMerged fixtures odds)) →
      build_totals_table fixtures odds = .error "KeyError") := by
  constructor
  · intro hov hun
    have hg := ttColumns_mem_groups_ne_nil hov
    have hM := ttGroupRows_ne_nil_merged hg
    obtain ⟨hio, hfm⟩ := ttMerged_ne_nil_sources hM
    cases hm : ttMerged fixtures odds with
    | nil => exact absurd hm hM
    | cons matchRow rest =>
      rw [hm] at hov hun hg
      have hlinha : (((ttPoints (matchRow :: rest)).map fun p =>
          ({ linha := p
             over := ttCell (matchRow :: rest) p "Over"
             under := ttCell (matchRow :: rest) p "Under"
             casas := ttCount (matchRow :: rest) p
             atualizado := ttLastUpdate (matchRow :: rest) p }
            : TotalsRow)).map fun r => r.linha) =
          ttPoints (matchRow :: rest) := by
        rw [List.map_map]
        show (ttPoints (matchRow :: rest)).map (fun p => p) =
          ttPoints (matchRow :: rest)
        exact List.map_id' _
      refine ⟨{
          rodada := matchRow.matchday
          fase := matchRow.stage
          dataBr := matchRow.kickoff_local
          partidaHome := matchRow.fixture_home_team
          partidaAway := matchRow.fixture_away_team
          rows := (ttPoints (matchRow :: rest)).map fun p =>
            { linha := p
              over := ttCell (matchRow :: rest) p "Over"
              under := ttCell (matchRow :: rest) p "Under"
              casas := ttCount (matchRow :: rest) p
              atualizado := ttLastUpdate (matchRow :: rest) p } }, ?_,
        ?_, ?_, ?_, ?_⟩
      · unfold build_totals_table
        rw [if_neg (by simp [hio]), if_neg (by simp [hfm]), hm]
        dsimp only
        rw [if_neg (by simp [hg]), if_pos ⟨hov, hun⟩]
      · exact hlinha
      · dsimp only
        rw [hlinha]
        have hsorted := sortLe_sorted (fun a b : ℚ => decide (a ≤ b))
          ratLE_trans ratLE_total
          (((ttGroupRows (matchRow :: rest)).filterMap
            fun r => r.outcome_point).dedup)
        have hnodup : (ttPoints (matchRow :: rest)).Nodup :=
          (sortLe_perm _ _).nodup_iff.mpr (List.nodup_dedup _)
        have hboth := List.Pairwise.and hsorted hnodup
        exact hboth.imp fun hab =>
          lt_of_le_of_ne (of_decide_eq_true hab.1) hab.2
      · intro p
        dsimp only
        rw [hlinha]
        unfold ttPoints
        rw [List.Perm.mem_iff (sortLe_perm _ _), List.mem_dedup,
          List.mem_filterMap]
      · intro r hr
        dsimp only at hr
        rcases List.mem_map.mp hr with ⟨p, hp, hrp⟩
        subst hrp
        exact ⟨rfl, rfl, rfl, rfl⟩
  · intro hg hcols
    have hM := ttGroupRows_ne_nil_merged hg
    obtain ⟨hio, hfm⟩ := ttMerged_ne_nil_sources hM
    cases hm : ttMerged fixtures odds with
    | nil => exact absurd hm hM
    | cons matchRow rest =>
      rw [hm] at hg hcols
      unfold build_totals_table
      rw [if_neg (by simp [hio]), if_neg (by simp [hfm]), hm]
      dsimp only
      rw [if_neg (by simp [hg]), if_neg hcols]

/-- A totals quote of the C3 example. -/
def c3quote (bk nm : String) (pt price : ℚ) : Row :=
  { event_id := some "ev1", home_team := some "Barcelona"
    away_team := some "Bayern Munich", bookmaker_key := some bk
    bookmaker_last_update := some 60, market_key := some "totals"
    outcome_name := some nm, outcome_price := some price
    outcome_point := some pt }

/-- Totals quotes at goal lines 2.5 and 3.5, each with an Over and an
Under price. -/
def c3odds : List Row :=
  [c3quote "bk1" "Over" (mkRat 7 2) (mkRat 21 10),
   c3quote "bk1" "Under" (mkRat 7 2) (mkRat 17 10),
   c3quote "bk2" "Over" (mkRat 5 2) (mkRat 19 10),
   c3quote "bk2" "Under" (mkRat 5 2) (mkRat 3 2)]

/-- The totals table produced on the C3 example: exactly two rows,
sorted ascending, each with Over and Under populated. -/
def c3expected : TotalsTable :=
  { rodada := some 2, fase := some "LEAGUE_STAGE"
    dataBr := some "01/10 16:00", partidaHome := some "FC Barcelona"
    partidaAway := some "Bayern Munich"
    rows := [{ linha := mkRat 5 2, over := some (mkRat 19 10)
               under := some (mkRat 3 2), casas := 1
               atualizado := some 60 },
             { linha := mkRat 7 2, over := some (mkRat 21 10)
               under := some (mkRat 17 10), casas := 1
               atualizado := some 60 }] }

/-- Closed witness for `totals_table_spec`: goal lines `{2.5, 3.5}` give
two ascending rows with both columns populated. -/
theorem totals_table_spec_witness :
    build_totals_table [c1fixture] c3odds = .ok (some c3expected) ∧
    (c3expected.rows.map fun r => r.linha) =
      ttPoints (ttMerged [c1fixture] c3odds) ∧
    List.Pairwise (fun a b : ℚ => a < b)
      (c3expected.rows.map fun r => r.linha) ∧
    c3expected.rows.length = 2 ∧
    ∀ r ∈ c3expected.rows, r.over.isSome ∧ r.under.isSome := by
  obtain ⟨t, hbuild, hlin, hpair, hmem, hcells⟩ :=
    (totals_table_spec [c1fixture] c3odds).1 (by decide) (by decide)
  have hc : build_totals_table [c1fixture] c3odds = .ok (some c3expected) :=
    rfl
  rw [hc] at hbuild
  have hteq : c3expected = t := Option.some.inj (Except.ok.inj hbuild)
  rw [← hteq] at hlin hpair
  exact ⟨hc, hlin, hpair, by decide, by decide⟩

/-- Totals quotes at goal lines 2.5 and 3.5 that join to the fixture but
carry only `Over` outcome names. -/
def c3overOnly : List Row :=
  [c3quote "bk1" "Over" (mkRat 7 2) (mkRat 21 10),
   c3quote "bk2" "Over" (mkRat 5 2) (mkRat 19 10)]

/-- C3 counterexample: an odds set whose totals quotes join to the
fixture (the joined group rows are nonempty, so the claim's antecedent
holds) but carry only `Over` outcome names makes `build_totals_table`
raise a `KeyError` in the final `Over`/`Under` column selection instead
of returning sorted rows. -/
theorem totals_table_claim_counterexample :
    ttGroupRows (ttMerged [c1fixture] c3overOnly) ≠ [] ∧
    "Over" ∈ ttColumns (ttMerged [c1fixture] c3overOnly) ∧
    "Under" ∉ ttColumns (ttMerged [c1fixture] c3overOnly) ∧
    build_totals_table [c1fixture] c3overOnly = .error "KeyError" :=
  ⟨by decide, by decide, by decide, rfl⟩

/-! ## Market availability fallback (`get_cl_odds_data`) -/

/-- Quota metadata attached to odds API responses (odds_api.py,
lines 23-27). -/
structure OddsAPIMeta where
  requests_remaining : Option Int := none
  requests_used : Option Int := none
  requests_last : Option Int := none
  deriving DecidableEq, Repr

/-- Abstract outcome of one `fetch_champions_league_odds` call:
success, an `OddsAPIHTTPError` carrying its status code, or a plain
`OddsAPIError`. -/
inductive FetchResult where
  | ok (df : List Row) (meta : OddsAPIMeta)
  | httpError (status : Option Int)
  | apiError
  deriving DecidableEq, Repr

/-- Errors propagated out of `get_cl_odds_data`. -/
inductive OddsLoadError where
  | http (status : Option Int)
  | api
  deriving DecidableEq, Repr

/-- `get_cl_odds_data` (app/streamlit_app.py, lines 116-129) over an
abstract fetch behavior, instrumented with the list of market tuples
requested from the provider: the multi-market request, retried once with
only `h2h` when it fails with a 422 and more than one market was
requested; any other error class, and a failing retry, propagate. -/
def get_cl_odds_dataT (fetch : List String → FetchResult) :
    Except OddsLoadError (List Row × OddsAPIMeta × List String) ×
      List (List String) :=
  match fetch ["h2h", "totals"] with
  | .ok df meta => (.ok (df, meta, ["h2h", "totals"]), [["h2h", "totals"]])
  | .httpError s =>
    if s = some 422 ∧ (["h2h", "totals"] : List String).length > 1 then
      match fetch ["h2h"] with
      | .ok df meta => (.ok (df, meta, ["h2h"]), [["h2h", "totals"], ["h2h"]])
      | .httpError s2 => (.error (.http s2), [["h2h", "totals"], ["h2h"]])
      | .apiError => (.error .api, [["h2h", "totals"], ["h2h"]])
    else (.error (.http s), [["h2h", "totals"]])
  | .apiError => (.error .api, [["h2h", "totals"]])

/-- The result of `get_cl_odds_data`. -/
def get_cl_odds_data (fetch : List String → FetchResult) :
    Except OddsLoadError (List Row × OddsAPIMeta × List String) :=
  (get_cl_odds_dataT fetch).1

/-- The market tuples requested from the provider during
`get_cl_odds_data`. -/
def oddsCallTrace (fetch : List String → FetchResult) :
    List (List String) :=
  (get_cl_odds_dataT fetch).2

/-- `totals_enabled = "totals" in used_markets`
(app/streamlit_app.py, line 731): when false, the app shows the
totals-unavailable notice instead of building the totals table. -/
def totals_enabled (used : List String) : Bool := used.contains "totals"

/-- C6: a 422 on the multi-market request triggers exactly one retry
with only the moneyline market; any other error class, or a failure of
the single-market retry, propagates; after a successful fallback the
totals market is reported unavailable (`totals_enabled = false`). -/
theorem odds_fallback_spec (fetch : List String → FetchResult) :
    (∀ df meta, fetch ["h2h", "totals"] = .ok df meta →
      get_cl_odds_data fetch = .ok (df, meta, ["h2h", "totals"]) ∧
      oddsCallTrace fetch = [["h2h", "totals"]]) ∧
    (fetch ["h2h", "totals"] = .httpError (some 422) →
      oddsCallTrace fetch = [["h2h", "totals"], ["h2h"]] ∧
      (∀ df meta, fetch ["h2h"] = .ok df meta →
        get_cl_odds_data fetch = .ok (df, meta, ["h2h"]) ∧
        totals_enabled ["h2h"] = false) ∧
      (∀ s2, fetch ["h2h"] = .httpError s2 →
        get_cl_odds_data fetch = .error (.http s2)) ∧
      (fetch ["h2h"] = .apiError →
        get_cl_odds_data fetch = .error .api)) ∧
    (∀ s, s ≠ some 422 → fetch ["h2h", "totals"] = .httpError s →
      get_cl_odds_data fetch = .error (.http s) ∧
      oddsCallTrace fetch = [["h2h", "totals"]]) ∧
    (fetch ["h2h", "totals"] = .apiError →
      get_cl_odds_data fetch = .error .api ∧
      oddsCallTrace fetch = [["h2h", "totals"]]) := by
  refine ⟨?_, ?_, ?_, ?_⟩
  · intro df meta h
    unfold get_cl_odds_data oddsCallTrace get_cl_odds_dataT
    rw [h]
    exact ⟨rfl, rfl⟩
  · intro h
    unfold get_cl_odds_data oddsCallTrace get_cl_odds_dataT
    rw [h]
    dsimp only
    refine ⟨?_, ?_, ?_, ?_⟩
    · rw [if_pos (by simp)]
      cases fetch ["h2h"] <;> rfl
    · intro df meta h2
      rw [if_pos (by simp), h2]
      exact ⟨rfl, rfl⟩
    · intro s2 h2
      rw [if_pos (by simp), h2]
    · intro h2
      rw [if_pos (by simp), h2]
  · intro s hs h
    unfold get_cl_odds_data oddsCallTrace get_cl_odds_dataT
    rw [h]
    dsimp only
    rw [if_neg (by simp [hs])]
    exact ⟨rfl, rfl⟩
  · intro h
    unfold get_cl_odds_data oddsCallTrace get_cl_odds_dataT
    rw [h]
    exact ⟨rfl, rfl⟩

/-- The fetch behavior of the C6 example: the multi-market request fails
with 422, the single-market request succeeds. -/
def c6fetch : List String → FetchResult := fun ms =>
  if ms = ["h2h", "totals"] then .httpError (some 422)
  else .ok [] {}

/-- Closed witness for `odds_fallback_spec`: the 422 fallback makes
exactly the two calls and disables totals. -/
theorem odds_fallback_spec_witness :
    oddsCallTrace c6fetch = [["h2h", "totals"], ["h2h"]] ∧
    get_cl_odds_data c6fetch = .ok ([], {}, ["h2h"]) ∧
    totals_enabled ["h2h"] = false :=
  ⟨((odds_fallback_spec c6fetch).2.1 (by decide)).1,
   (((odds_fallback_spec c6fetch).2.1 (by decide)).2.1 [] {} (by decide)).1,
   (((odds_fallback_spec c6fetch).2.1 (by decide)).2.1 [] {} (by decide)).2⟩

/-! ## Low-level Odds API fetch with retries (`_get`) -/

/-- Outcome of one HTTP attempt as seen by `_get` (odds_api.py):
a response with a JSON body (`isList` records whether the body is the
expected list), an HTTP error status with the server-provided detail
message, or a network failure (`requests.RequestException`). -/
inductive HttpOutcome where
  | success (isList : Bool) (rows : List Row) (meta : OddsAPIMeta)
  | status (code : ℕ) (detail : String)
  | netFail
  deriving DecidableEq, Repr

/-- Errors raised by `_get` (odds_api.py, lines 52-106):
`configMissing` for the absent API key (line 53), `notFound` for 404
(fixed advisory message, no server detail, lines 83-87), `unprocessable`
for 422 (server detail in the message, lines 88-92), `httpOther` for any
other HTTP failure (server detail in the message, line 93), `network`
after exhausted network retries (line 98), `badPayload` for a non-list
body (line 104). -/
inductive GetError where
  | configMissing
  | notFound
  | unprocessable (detail : String)
  | httpOther (status : ℕ) (detail : String)
  | network
  | badPayload
  deriving DecidableEq, Repr

/-- The status code attached to the raised exception. -/
def errorStatus : GetError → Option ℕ
  | .notFound => some 404
  | .unprocessable _ => some 422
  | .httpOther s _ => some s
  | _ => none

/-- The server-provided detail embedded in the exception message. -/
def errorDetail : GetError → Option String
  | .unprocessable d => some d
  | .httpOther _ d => some d
  | _ => none

/-- `MAX_RETRIES` (odds_api.py, line 31). -/
def MAX_RETRIES : ℕ := 3

/-- `RETRY_DELAY_SECONDS` (odds_api.py, line 32). -/
def RETRY_DELAY_SECONDS : ℕ := 2

/-- The statuses retried by `_get` (line 80): 429 and the listed 5xx
codes only. -/
def isTransientStatus (c : ℕ) : Bool :=
  c = 429 || c = 500 || c = 502 || c = 503 || c = 504

/-- Map a non-retried HTTP status to the raised error (lines 83-93). -/
def statusError (c : ℕ) (detail : String) : GetError :=
  if c = 404 then .notFound
  else if c = 422 then .unprocessable detail
  else .httpOther c detail

/-- The result of the final attempt, once `attempts <= MAX_RETRIES` no
longer holds: every failure raises. -/
def getFinal (responses : ℕ → HttpOutcome) (attempt : ℕ)
    (sleeps : List ℕ) :
    Except GetError (List Row × OddsAPIMeta) × ℕ × List ℕ :=
  match responses attempt with
  | .success isList rows meta =>
    if isList then (.ok (rows, meta), attempt, sleeps)
    else (.error .badPayload, attempt, sleeps)
  | .status c detail => (.error (statusError c detail), attempt, sleeps)
  | .netFail => (.error .network, attempt, sleeps)

/-- The `while True` retry loop of `_get` (lines 71-106) over an oracle
giving the outcome of the n-th request (1-based).  `remaining` counts
the retries still allowed (`MAX_RETRIES - (attempt - 1)`, so that
`remaining > 0` is the Python condition `attempts <= MAX_RETRIES`).
Returns the result, the number of requests made and the sleep durations
of the linear backoff `RETRY_DELAY_SECONDS * attempts`. -/
def getLoop (responses : ℕ → HttpOutcome) :
    ℕ → ℕ → List ℕ →
    Except GetError (List Row × OddsAPIMeta) × ℕ × List ℕ
  | 0, attempt, sleeps => getFinal responses attempt sleeps
  | remaining + 1, attempt, sleeps =>
    match responses attempt with
    | .success isList rows meta =>
      if isList then (.ok (rows, meta), attempt, sleeps)
      else (.error .badPayload, attempt, sleeps)
    | .status c detail =>
      if isTransientStatus c then
        getLoop responses remaining (attempt + 1)
          (sleeps ++ [RETRY_DELAY_SECONDS * attempt])
      else (.error (statusError c detail), attempt, sleeps)
    | .netFail =>
      getLoop responses remaining (attempt + 1)
        (sleeps ++ [RETRY_DELAY_SECONDS * attempt])

/-- `_get` (odds_api.py, lines 52-106): a missing API key raises before
any request; otherwise run the bounded retry loop. -/
def _get (keyPresent : Bool) (responses : ℕ → HttpOutcome) :
    Except GetError (List Row × OddsAPIMeta) × ℕ × List ℕ :=
  if keyPresent then getLoop responses MAX_RETRIES 1 []
  else (.error .configMissing, 0, [])

theorem getLoop_count_le (responses : ℕ → HttpOutcome) :
    ∀ (remaining attempt : ℕ) (sleeps : List ℕ),
    (getLoop responses remaining attempt sleeps).2.1 ≤ attempt + remaining := by
  intro remaining
  induction remaining with
  | zero =>
    intro attempt sleeps
    unfold getLoop getFinal
    cases responses attempt with
    | success isList rows meta =>
      by_cases h : isList = true
      · simp [h]
      · simp [h]
    | status c detail => simp
    | netFail => simp
  | succ rem ih =>
    intro attempt sleeps
    unfold getLoop
    cases responses attempt with
    | success isList rows meta =>
      dsimp only
      by_cases h : isList = true
      · simp [h]
      · simp [h]
    | status c detail =>
      dsimp only
      by_cases h : isTransientStatus c = true
      · rw [if_pos h]
        have := ih (attempt + 1) (sleeps ++ [RETRY_DELAY_SECONDS * attempt])
        omega
      · rw [if_neg h]
        simp
    | netFail =>
      dsimp only
      have := ih (attempt + 1) (sleeps ++ [RETRY_DELAY_SECONDS * attempt])
      omega

/-- Responses always returning HTTP 501 with a detail message. -/
def resp501 : ℕ → HttpOutcome := fun _ => .status 501 "server exploded"

/-- Responses always returning HTTP 404 with a server detail message. -/
def resp404 : ℕ → HttpOutcome := fun _ => .status 404 "sport key retired"

/-- C8 counterexample: the claim as stated is false on the code.
501 is a 5xx status, yet `_get` makes exactly one request and does not
retry it (only 429/500/502/503/504 are retried); and the 404 error
carries no server-provided detail message (it is replaced by a fixed
advisory message), contradicting "propagate … carrying the original
status code and the server-provided detail message". -/
theorem get_retry_claim_counterexample :
    (_get true resp501).2.1 = 1 ∧
    (_get true resp501).1 = .error (.httpOther 501 "server exploded") ∧
    (_get true resp404).1 = .error .notFound ∧
    errorDetail .notFound = none ∧ errorStatus .notFound = some 404 :=
  ⟨rfl, rfl, rfl, rfl, rfl⟩

/-- C8 (amended): `_get` retries only 429/500/502/503/504 and network
failures, up to `MAX_RETRIES` additional attempts with linear backoff,
before giving up; any other HTTP status is not retried and propagates
carrying the original status code, with the server detail in the
message except for 404 which maps to a fixed advisory message; a
missing API key raises before any request is made.  The network-failure
conjuncts show a network exception is retried exactly like a transient
status: exhausting all attempts makes `MAX_RETRIES + 1` requests with
the linear backoff sleeps before the network error is raised, and a
success on the retry recovers. -/
theorem get_retry_spec (responses : ℕ → HttpOutcome) :
    ((_get false responses).1 = .error .configMissing ∧
      (_get false responses).2.1 = 0) ∧
    (∀ c detail, isTransientStatus c = false →
      responses 1 = .status c detail →
      (_get true responses).1 = .error (statusError c detail) ∧
      (_get true responses).2.1 = 1 ∧
      errorStatus (statusError c detail) = some c ∧
      errorDetail (statusError c detail) =
        (if c = 404 then none else some detail)) ∧
    (∀ c1 d1 c2 d2 c3 d3 c4 d4,
      isTransientStatus c1 = true → isTransientStatus c2 = true →
      isTransientStatus c3 = true →
      responses 1 = .status c1 d1 → responses 2 = .status c2 d2 →
      responses 3 = .status c3 d3 → responses 4 = .status c4 d4 →
      (_get true responses).2.1 = 4 ∧
      (_get true responses).2.2 = [2, 4, 6] ∧
      (_get true responses).1 = .error (statusError c4 d4)) ∧
    (∀ c d rows meta, isTransientStatus c = true →
      responses 1 = .status c d →
      responses 2 = .success true rows meta →
      (_get true responses).1 = .ok (rows, meta) ∧
      (_get true responses).2.1 = 2 ∧
      (_get true responses).2.2 = [2]) ∧
    (responses 1 = .netFail → responses 2 = .netFail →
      responses 3 = .netFail → responses 4 = .netFail →
      (_get true responses).1 = .error .network ∧
      (_get true responses).2.1 = 4 ∧
      (_get true responses).2.2 = [2, 4, 6]) ∧
    (∀ rows meta, responses 1 = .netFail →
      responses 2 = .success true rows meta →
      (_get true responses).1 = .ok (rows, meta) ∧
      (_get true responses).2.1 = 2 ∧
      (_get true responses).2.2 = [2]) ∧
    (_get true responses).2.1 ≤ MAX_RETRIES + 1 := by
  refine ⟨⟨rfl, rfl⟩, ?_, ?_, ?_, ?_, ?_, ?_⟩
  · intro c detail hc h1
    unfold _get MAX_RETRIES getLoop
    rw [if_pos rfl, h1]
    dsimp only
    rw [if_neg (by simp [hc])]
    have hse : errorStatus (statusError c detail) = some c := by
      unfold errorStatus statusError
      by_cases h404 : c = 404
      · simp [h404]
      · by_cases h422 : c = 422
        · simp [h404, h422]
        · simp [h404, h422]
    have hsd : errorDetail (statusError c detail) =
        (if c = 404 then none else some detail) := by
      unfold errorDetail statusError
      by_cases h404 : c = 404
      · simp [h404]
      · by_cases h422 : c = 422
        · simp [h404, h422]
        · simp [h404, h422]
    exact ⟨rfl, rfl, hse, hsd⟩
  · intro c1 d1 c2 d2 c3 d3 c4 d4 t1 t2 t3 h1 h2 h3 h4
    unfold _get MAX_RETRIES
    rw [if_pos rfl]
    unfold getLoop
    rw [h1]
    dsimp only
    rw [if_pos t1]
    unfold getLoop
    rw [h2]
    dsimp only
    rw [if_pos t2]
    unfold getLoop
    rw [h3]
    dsimp only
    rw [if_pos t3]
    unfold getLoop getFinal
    rw [h4]
    exact ⟨rfl, rfl, rfl⟩
  · intro c d rows meta t h1 h2
    unfold _get MAX_RETRIES
    rw [if_pos rfl]
    unfold getLoop
    rw [h1]
    dsimp only
    rw [if_pos t]
    unfold getLoop
    rw [h2]
    dsimp only
    rw [if_pos rfl]
    exact ⟨rfl, rfl, rfl⟩
  · intro h1 h2 h3 h4
    unfold _get MAX_RETRIES
    rw [if_pos rfl]
    unfold getLoop
    rw [h1]
    dsimp only
    unfold getLoop
    rw [h2]
    dsimp only
    unfold getLoop
    rw [h3]
    dsimp only
    unfold getLoop getFinal
    rw [h4]
    exact ⟨rfl, rfl, rfl⟩
  · intro rows meta h1 h2
    unfold _get MAX_RETRIES
    rw [if_pos rfl]
    unfold getLoop
    rw [h1]
    dsimp only
    unfold getLoop
    rw [h2]
    dsimp only
    rw [if_pos rfl]
    exact ⟨rfl, rfl, rfl⟩
  · unfold _get
    rw [if_pos rfl]
    have := getLoop_count_le responses MAX_RETRIES 1 []
    omega

/-- Rate-limited once, then success. -/
def resp429then : ℕ → HttpOutcome := fun i =>
  if i = 1 then .status 429 "rate limited" else .success true [] {}

/-- A permanent 400 failure. -/
def resp400 : ℕ → HttpOutcome := fun _ => .status 400 "bad region"

/-- A network failure on every attempt. -/
def respNetAll : ℕ → HttpOutcome := fun _ => .netFail

/-- A network failure on the first attempt, then success. -/
def respNetThen : ℕ → HttpOutcome := fun i =>
  if i = 1 then .netFail else .success true [] {}

/-- Closed witness for `get_retry_spec`: a 429 is retried once and the
second attempt succeeds after a 2-second backoff; a 400 stops at the
first request with its status and detail attached; persistent network
failures make all four requests with sleeps 2, 4, 6 before the network
error; a single network failure is retried and the second attempt
succeeds. -/
theorem get_retry_spec_witness :
    ((_get true resp429then).1 = .ok ([], {}) ∧
      (_get true resp429then).2.1 = 2 ∧
      (_get true resp429then).2.2 = [2]) ∧
    ((_get true resp400).1 = .error (statusError 400 "bad region") ∧
      (_get true resp400).2.1 = 1 ∧
      errorStatus (statusError 400 "bad region") = some 400 ∧
      errorDetail (statusError 400 "bad region") =
        (if 400 = 404 then none else some "bad region")) ∧
    ((_get true respNetAll).1 = .error .network ∧
      (_get true respNetAll).2.1 = 4 ∧
      (_get true respNetAll).2.2 = [2, 4, 6]) ∧
    ((_get true respNetThen).1 = .ok ([], {}) ∧
      (_get true respNetThen).2.1 = 2 ∧
      (_get true respNetThen).2.2 = [2]) := by
  refine ⟨?_, ?_, ?_, ?_⟩
  · have h := (get_retry_spec resp429then).2.2.2.1 429 "rate limited" [] {}
      (by decide) (by decide) (by decide)
    exact h
  · have h := (get_retry_spec resp400).2.1 400 "bad region"
      (by decide) (by decide)
    exact ⟨h.1, h.2.1, h.2.2.1, h.2.2.2⟩
  · exact (get_retry_spec respNetAll).2.2.2.2.1 rfl rfl rfl rfl
  · exact (get_retry_spec respNetThen).2.2.2.2.2.1 [] {} rfl rfl

/-! ## Heap model: reconciler runs do not mutate caller frames -/

/-- A heap of pandas frame objects; an index is a Python object
identity.  Mutating a frame in place is an update at its index;
`df.copy()` and every pandas operation returning a new frame allocate a
fresh index. -/
abbrev FrameHeap := List (List Row)

/-- Allocate a fresh frame object, returning its identity. -/
def heapAlloc (h : FrameHeap) (v : List Row) : FrameHeap × ℕ :=
  (h ++ [v], h.length)

/-- In-place mutation of the frame object `i` (a pandas column
assignment). -/
def heapWrite (h : FrameHeap) (i : ℕ) (v : List Row) : FrameHeap :=
  h.set i v

/-- Dereference a frame object. -/
def heapRead (h : FrameHeap) (i : ℕ) : List Row :=
  h.getD i []

/-- `build_moneyline_summary` over the frame heap, performing the same
object allocations and in-place column assignments as the Python code
(lines 132-208): the two `.copy()` calls, the two normalized-key column
assignments on each copy, the fresh frames produced by filtering /
subsetting / merging, and the `outcome_label` column assignment on the
merged frame.  The caller's frames `fi` and `oi` are only read. -/
def build_moneyline_summary_heap (h : FrameHeap) (fi oi : ℕ) :
    FrameHeap × Option MoneylineSummary :=
  let fixtures_df := heapRead h fi
  let odds_df := heapRead h oi
  if fixtures_df.isEmpty || odds_df.isEmpty then (h, none) else
  let (h, fixId) := heapAlloc h fixtures_df
  let fixtures := addHomeNorm fixtures_df
  let h := heapWrite h fixId fixtures
  let fixtures := addAwayNorm fixtures
  let h := heapWrite h fixId fixtures
  let (h, _oddsCopyId) := heapAlloc h odds_df
  let odds := filterMarket "h2h" odds_df
  let (h, oddsId) := heapAlloc h odds
  if odds.isEmpty then (h, none) else
  let odds := addHomeNorm odds
  let h := heapWrite h oddsId odds
  let odds := addAwayNorm odds
  let h := heapWrite h oddsId odds
  let subset := fixtures.map fixtureSubsetRow
  let (h, _subsetId) := heapAlloc h subset
  let odds := odds.map dropTeamCols
  let (h, _dropId) := heapAlloc h odds
  let merged := innerMergeOnNorm odds subset
  let (h, mergedId) := heapAlloc h merged
  if merged.isEmpty then (h, none) else
  let merged := merged.map fun r => { r with outcome_label := mapOutcome r }
  let h := heapWrite h mergedId merged
  let labeled := merged.filter fun r => r.outcome_label.isSome
  let (h, _labeledId) := heapAlloc h labeled
  match labeled with
  | [] => (h, none)
  | matchInfo :: rest =>
    (h, some {
      rodada := matchInfo.matchday
      fase := matchInfo.stage
      dataBr := matchInfo.kickoff_local
      partidaHome := matchInfo.fixture_home_team
      partidaAway := matchInfo.fixture_away_team
      casas := nuniqueStr ((matchInfo :: rest).map fun r => r.bookmaker_key)
      atualizado := maxOptInt ((matchInfo :: rest).map
        fun r => r.bookmaker_last_update)
      mandante := groupGet (groupMedians (matchInfo :: rest)) "Mandante"
      empate := groupGet (groupMedians (matchInfo :: rest)) "Empate"
      visitante := groupGet (groupMedians (matchInfo :: rest)) "Visitante" })

/-- `build_totals_table` over the frame heap (lines 211-286), with the
same allocation and mutation pattern as the moneyline path. -/
def build_totals_table_heap (h : FrameHeap) (fi oi : ℕ) :
    FrameHeap × Except String (Option TotalsTable) :=
  let fixtures_df := heapRead h fi
  let odds_df := heapRead h oi
  if fixtures_df.isEmpty || odds_df.isEmpty then (h, .ok none) else
  let (h, fixId) := heapAlloc h fixtures_df
  let fixtures := addHomeNorm fixtures_df
  let h := heapWrite h fixId fixtures
  let fixtures := addAwayNorm fixtures
  let h := heapWrite h fixId fixtures
  let (h, _oddsCopyId) := heapAlloc h odds_df
  let odds := filterMarket "totals" odds_df
  let (h, oddsId) := heapAlloc h odds
  if odds.isEmpty then (h, .ok none) else
  let odds := addHomeNorm odds
  let h := heapWrite h oddsId odds
  let odds := addAwayNorm odds
  let h := heapWrite h oddsId odds
  let subset := fixtures.map fixtureSubsetRow
  let (h, _subsetId) := heapAlloc h subset
  let odds := odds.map dropTeamCols
  let (h, _dropId) := heapAlloc h odds
  let merged := innerMergeOnNorm odds subset
  let (h, _mergedId) := heapAlloc h merged
  match merged with
  | [] => (h, .ok none)
  | matchRow :: rest =>
    if (ttGroupRows (matchRow :: rest)).isEmpty then (h, .ok none)
    else if "Over" ∈ ttColumns (matchRow :: rest) ∧
        "Under" ∈ ttColumns (matchRow :: rest) then
      (h, .ok (some {
        rodada := matchRow.matchday
        fase := matchRow.stage
        dataBr := matchRow.kickoff_local
        partidaHome := matchRow.fixture_home_team
        partidaAway := matchRow.fixture_away_team
        rows := (ttPoints (matchRow :: rest)).map fun p =>
          { linha := p
            over := ttCell (matchRow :: rest) p "Over"
            under := ttCell (matchRow :: rest) p "Under"
            casas := ttCount (matchRow :: rest) p
            atualizado := ttLastUpdate (matchRow :: rest) p } }))
    else (h, .error "KeyError")

theorem bml_heap_result (h : FrameHeap) (fi oi : ℕ) :
    (build_moneyline_summary_heap h fi oi).2 =
      build_moneyline_summary (heapRead h fi) (heapRead h oi) := by
  unfold build_moneyline_summary_heap build_moneyline_summary heapAlloc
    heapWrite heapRead
  unfold mlLabeled
  unfold mlMerged
  unfold mlOddsPrepped mlFixturesPrepped
  dsimp only
  repeat' split
  all_goals rfl

theorem btt_heap_result (h : FrameHeap) (fi oi : ℕ) :
    (build_totals_table_heap h fi oi).2 =
      build_totals_table (heapRead h fi) (heapRead h oi) := by
  unfold build_totals_table_heap build_totals_table heapAlloc heapWrite
    heapRead
  unfold ttMerged
  unfold ttOddsPrepped mlFixturesPrepped
  dsimp only
  repeat' split
  all_goals rfl

theorem bml_heap_preserves (h : FrameHeap) (fi oi j : ℕ)
    (hj : j < h.length) :
    ((build_moneyline_summary_heap h fi oi).1)[j]? = h[j]? := by
  unfold build_moneyline_summary_heap heapAlloc heapWrite heapRead
  dsimp only
  repeat' split
  all_goals
    repeat
      first
      | rw [List.getElem?_set_ne (by
          try simp only [List.length_set, List.length_append,
            List.length_cons, List.length_nil]
          omega)]
      | rw [List.getElem?_append_left (by
          try simp only [List.length_set, List.length_append,
            List.length_cons, List.length_nil]
          omega)]
  all_goals rfl

theorem btt_heap_preserves (h : FrameHeap) (fi oi j : ℕ)
    (hj : j < h.length) :
    ((build_totals_table_heap h fi oi).1)[j]? = h[j]? := by
  unfold build_totals_table_heap heapAlloc heapWrite heapRead
  dsimp only
  repeat' split
  all_goals
    repeat
      first
      | rw [List.getElem?_set_ne (by
          try simp only [List.length_set, List.length_append,
            List.length_cons, List.length_nil]
          omega)]
      | rw [List.getElem?_append_left (by
          try simp only [List.length_set, List.length_append,
            List.length_cons, List.length_nil]
          omega)]
  all_goals rfl

theorem heapRead_eq (h : FrameHeap) (i : ℕ) :
    heapRead h i = (h[i]?).getD [] := by
  unfold heapRead
  rw [List.getD_eq_getElem?_getD]

/-- C9: running the moneyline or totals reconciler twice on the same
caller frames yields identical outputs, and neither run mutates the
caller-supplied input frames: the heap cells holding the fixtures and
odds frames are unchanged after either run. -/
theorem reconcile_idempotent_no_mutation (h : FrameHeap) (fi oi : ℕ)
    (hfi : fi < h.length) (hoi : oi < h.length) :
    ((build_moneyline_summary_heap
        ((build_moneyline_summary_heap h fi oi).1) fi oi).2 =
      (build_moneyline_summary_heap h fi oi).2 ∧
     ((build_moneyline_summary_heap h fi oi).1)[fi]? = h[fi]? ∧
     ((build_moneyline_summary_heap h fi oi).1)[oi]? = h[oi]? ∧
     ((build_moneyline_summary_heap
        ((build_moneyline_summary_heap h fi oi).1) fi oi).1)[fi]? = h[fi]? ∧
     ((build_moneyline_summary_heap
        ((build_moneyline_summary_heap h fi oi).1) fi oi).1)[oi]? = h[oi]?) ∧
    ((build_totals_table_heap
        ((build_totals_table_heap h fi oi).1) fi oi).2 =
      (build_totals_table_heap h fi oi).2 ∧
     ((build_totals_table_heap h fi oi).1)[fi]? = h[fi]? ∧
     ((build_totals_table_heap h fi oi).1)[oi]? = h[oi]?) := by
  have hp1 := bml_heap_preserves h fi oi fi hfi
  have hp2 := bml_heap_preserves h fi oi oi hoi
  have hq1 := btt_heap_preserves h fi oi fi hfi
  have hq2 := btt_heap_preserves h fi oi oi hoi
  have hlen : h.length ≤ ((build_moneyline_summary_heap h fi oi).1).length := by
    unfold build_moneyline_summary_heap heapAlloc heapWrite heapRead
    dsimp only
    repeat' split
    all_goals
      try simp only [List.length_set, List.length_append, List.length_cons,
        List.length_nil]
    all_goals omega
  have hp1b := bml_heap_preserves ((build_moneyline_summary_heap h fi oi).1)
    fi oi fi (lt_of_lt_of_le hfi hlen)
  have hp2b := bml_heap_preserves ((build_moneyline_summary_heap h fi oi).1)
    fi oi oi (lt_of_lt_of_le hoi hlen)
  refine ⟨⟨?_, hp1, hp2, ?_, ?_⟩, ?_, hq1, hq2⟩
  · rw [bml_heap_result, bml_heap_result, heapRead_eq, heapRead_eq,
      heapRead_eq h fi, heapRead_eq h oi, hp1, hp2]
  · rw [hp1b]
    exact hp1
  · rw [hp2b]
    exact hp2
  · rw [btt_heap_result, btt_heap_result, heapRead_eq, heapRead_eq,
      heapRead_eq h fi, heapRead_eq h oi, hq1, hq2]

/-- Closed witness for `reconcile_idempotent_no_mutation`: a two-cell
heap holding the C1 example frames. -/
theorem reconcile_idempotent_no_mutation_witness :
    ((build_moneyline_summary_heap
        ((build_moneyline_summary_heap [[c1fixture], c1odds] 0 1).1) 0 1).2 =
      (build_moneyline_summary_heap [[c1fixture], c1odds] 0 1).2 ∧
     ((build_moneyline_summary_heap [[c1fixture], c1odds] 0 1).1)[0]? =
       some [c1fixture] ∧
     ((build_moneyline_summary_heap [[c1fixture], c1odds] 0 1).1)[1]? =
       some c1odds) := by
  have h := reconcile_idempotent_no_mutation [[c1fixture], c1odds] 0 1
    (by decide) (by decide)
  exact ⟨h.1.1, h.1.2.1, h.1.2.2.1⟩

end CLHelper
